import Mathlib

/-!
# 7-Day Money Flow Reset bot: message splitter, financial quiz, access control

A shallow embedding of `src/message-splitter.js`, `src/financial-quiz.js` and
`src/access-control.js`, followed by theorems about them.

Conventions of the embedding

* A JavaScript string is its sequence of UTF-16 code units (`JSString`), so that
  `List.length` is `.length`, `List.take`/`List.drop` are `substring`, and `++` is `+`.
  `js` turns a Lean string literal into that sequence.
* `bot.sendMessage` is an external capability that may fail.  It is a function of an
  abstract transport state; every function that sends returns the list of calls it made,
  the transport state afterwards, and either its return value or the error it threw.
* The pauses (`setTimeout`) between sends and the detached follow-up timer of `showResults`
  run outside the calls modelled here and touch neither the sessions nor the results.
-/

namespace MoneyFlow

/-! ## JavaScript strings -/

/-- A JavaScript string: the list of its UTF-16 code units. -/
abbrev JSString := List Nat

/-- UTF-16 encoding of one Unicode scalar value (one unit, or a surrogate pair). -/
def utf16 (c : Char) : List Nat :=
  if c.toNat < 0x10000 then [c.toNat]
  else [0xD800 + (c.toNat - 0x10000) / 0x400, 0xDC00 + (c.toNat - 0x10000) % 0x400]

/-- The JavaScript string written as the Lean literal `s`. -/
def js (s : String) : JSString := s.toList.flatMap utf16

/-- Code units removed by `String.prototype.trim` and skipped by `parseInt`:
ECMAScript `WhiteSpace` (TAB, VT, FF, SP, NBSP, ZWNBSP, category Zs) and `LineTerminator`
(LF, CR, LS, PS). -/
def isWhiteSpace (c : Nat) : Bool :=
  c = 0x09 || c = 0x0A || c = 0x0B || c = 0x0C || c = 0x0D || c = 0x20 || c = 0xA0 ||
  c = 0x1680 || (0x2000 ≤ c && c ≤ 0x200A) || c = 0x2028 || c = 0x2029 || c = 0x202F ||
  c = 0x205F || c = 0x3000 || c = 0xFEFF

/-- Method `s.trim()`: drop white space at both ends. -/
def trim (s : JSString) : JSString :=
  ((s.dropWhile isWhiteSpace).reverse.dropWhile isWhiteSpace).reverse

/-- Method `s.split(sep)` for a separator of one code unit. -/
def split (sep : Nat) : JSString → List JSString
  | [] => [[]]
  | c :: cs =>
    if c = sep then [] :: split sep cs
    else
      match split sep cs with
      | [] => [[c]]
      | w :: ws => (c :: w) :: ws

/-- The line feed `'\n'`. -/
def LF : Nat := 0x0A

/-- The space `' '`. -/
def SP : Nat := 0x20

/-! ## `src/message-splitter.js` -/

/-- Constant `MAX_MESSAGE_LENGTH`. -/
def MAX_MESSAGE_LENGTH : Nat := 4096

/-- The two loop variables of `splitMessage`: `chunks` and `currentChunk`. -/
structure SplitState where
  chunks : List JSString
  currentChunk : JSString
deriving DecidableEq, Repr

/-- Flush of the pending chunk: when `currentChunk` is not empty, push `currentChunk.trim()`
and empty it (lines 28-31, and lines 63-65 where `currentChunk` is not read again). -/
def flush (st : SplitState) : SplitState :=
  if st.currentChunk ≠ [] then ⟨st.chunks ++ [trim st.currentChunk], []⟩ else st

/-- Body of `for (const word of words)` (lines 35-46). -/
def wordStep (maxLength : Nat) (st : SplitState) (word : JSString) : SplitState :=
  if (st.currentChunk ++ [SP] ++ word).length > maxLength then
    if st.currentChunk ≠ [] then
      ⟨st.chunks ++ [trim st.currentChunk], word⟩
    else
      ⟨st.chunks ++ [word.take maxLength], word.drop maxLength⟩
  else
    ⟨st.chunks, st.currentChunk ++ (if st.currentChunk ≠ [] then [SP] else []) ++ word⟩

/-- Body of `for (const line of lines)` (lines 27-60). -/
def lineStep (maxLength : Nat) (st : SplitState) (line : JSString) : SplitState :=
  if line.length > maxLength then
    (split SP line).foldl (wordStep maxLength) (flush st)
  else
    if (st.currentChunk ++ [LF] ++ line).length > maxLength then
      if st.currentChunk ≠ [] then
        ⟨st.chunks ++ [trim st.currentChunk], line⟩
      else
        ⟨st.chunks ++ [line], st.currentChunk⟩
    else
      ⟨st.chunks, st.currentChunk ++ (if st.currentChunk ≠ [] then [LF] else []) ++ line⟩

/-- Function `splitMessage(message, maxLength)` (lines 14-68). -/
def splitMessage (message : JSString) (maxLength : Nat := MAX_MESSAGE_LENGTH) : List JSString :=
  if message.length ≤ maxLength then [message]
  else (flush ((split LF message).foldl (lineStep maxLength) ⟨[], []⟩)).chunks


/-- The text with every white-space code unit deleted: its content. -/
def strip (s : JSString) : JSString := s.filter (fun c => !isWhiteSpace c)

/-- Content held by the loop variables: the pushed chunks followed by the pending one. -/
def SplitState.content (st : SplitState) : JSString :=
  strip st.chunks.flatten ++ strip st.currentChunk

/-! ## Sending through the bot -/

/-- How a call ends: with a return value, or with the error it threw (the rejection of the
promise of an `async` function). -/
inductive Outcome (ε β : Type) where
  | ok (value : β)
  | error (e : ε)
deriving DecidableEq, Repr

/-- A call `bot.sendMessage(chatId, text)` awaited in transport state `w`: the transport state
afterwards, and `none` when the send succeeds or the error it rejects with. -/
abbrev SendMessage (μ ε σ : Type) := σ → Nat → μ → σ × Option ε

/-- What a function that sends leaves behind: the `sendMessage` calls it made, in order, as
pairs `(chatId, text)`; the transport state; and how it ended. -/
structure Run (μ ε σ β : Type) where
  calls : List (Nat × μ)
  world : σ
  result : Outcome ε β
deriving DecidableEq, Repr

/-- The `for` loop of `sendLongMessage` (lines 81-93) over the chunks still to send.  The
`catch` logs and rethrows the same error; the pause between chunks sends nothing. -/
def sendChunks {ε σ : Type} (sendMessage : SendMessage JSString ε σ) (chatId : Nat) :
    List JSString → σ → Run JSString ε σ Unit
  | [], w => ⟨[], w, .ok ()⟩
  | chunk :: later, w =>
    match sendMessage w chatId chunk with
    | (w1, some error) => ⟨[(chatId, chunk)], w1, .error error⟩
    | (w1, none) =>
      let r := sendChunks sendMessage chatId later w1
      ⟨(chatId, chunk) :: r.calls, r.world, r.result⟩

/-- Function `sendLongMessage(bot, chatId, message, options, delay)` (lines 78-94); `options` is handed
unchanged to every `sendMessage` call. -/
def sendLongMessage {ε σ : Type} (sendMessage : SendMessage JSString ε σ) (chatId : Nat)
    (message : JSString) (w : σ) : Run JSString ε σ Unit :=
  sendChunks sendMessage chatId (splitMessage message) w

/-- Transport state after the texts `texts` have been sent one after the other from `w`. -/
def worldAfter {μ ε σ : Type} (sendMessage : SendMessage μ ε σ) (chatId : Nat)
    (texts : List μ) (w : σ) : σ :=
  texts.foldl (fun w1 t => (sendMessage w1 chatId t).1) w

/-- Every send of `texts`, one after the other from `w`, succeeds. -/
def allSucceed {μ ε σ : Type} (sendMessage : SendMessage μ ε σ) (chatId : Nat) :
    List μ → σ → Bool
  | [], _ => true
  | t :: ts, w =>
    (sendMessage w chatId t).2.isNone && allSucceed sendMessage chatId ts (sendMessage w chatId t).1

/-! ## Maps keyed by numbers (the `quizState` Map, the `answers` object) -/

/-- Read `m.get(k)` / `m[k]`: the value stored under `k`, if any. -/
def lookup {β : Type} (k : Nat) : List (Nat × β) → Option β
  | [] => none
  | (k1, v) :: rest => if k1 = k then some v else lookup k rest

/-- Write `m.set(k, v)` / `m[k] = v`: an existing entry is replaced in place, a new one is added
at the end. -/
def assign {β : Type} (k : Nat) (v : β) : List (Nat × β) → List (Nat × β)
  | [] => [(k, v)]
  | (k1, v1) :: rest => if k1 = k then (k, v) :: rest else (k1, v1) :: assign k v rest

/-- Removal `m.delete(k)`. -/
def remove {β : Type} (k : Nat) (m : List (Nat × β)) : List (Nat × β) :=
  m.filter (fun p => p.1 ≠ k)

/-! ## `src/financial-quiz.js`: data -/

/-- The `value` of an option: a number (questions 1-4) or a goal tag (question 5). -/
inductive AnswerValue where
  | num (n : ℚ)
  | tag (s : String)
deriving DecidableEq, Repr

/-- One entry of `options`. -/
structure QuizOption where
  value : AnswerValue
  text : String
deriving DecidableEq, Repr

/-- One entry of `financialQuiz.questions`. -/
structure Question where
  id : Nat
  question : String
  options : List QuizOption
deriving DecidableEq, Repr

/-- The table `financialQuiz.questions` (lines 16-67). -/
def financialQuiz.questions : List Question :=
  [ { id := 1, question := "💰 ចំណូលប្រចាំខែរបស់អ្នកប្រហែលប៉ុន្មាន?",
      options := [⟨.num 300, "ក្រោម $300"⟩, ⟨.num 600, "$300-$600"⟩,
        ⟨.num 1000, "$600-$1000"⟩, ⟨.num 1500, "លើស $1000"⟩] },
    { id := 2, question := "🏠 ចំណាយប្រចាំខែរបស់អ្នកប្រហែលប៉ុន្មាន?",
      options := [⟨.num 200, "ក្រោម $200"⟩, ⟨.num 400, "$200-$400"⟩,
        ⟨.num 700, "$400-$700"⟩, ⟨.num 1000, "លើស $700"⟩] },
    { id := 3, question := "💳 តើអ្នកមានបំណុលអ្វីខ្លះទេ?",
      options := [⟨.num 0, "គ្មានបំណុល"⟩, ⟨.num 500, "បំណុលតិចៗ (<$500)"⟩,
        ⟨.num 2000, "បំណុលមធ្យម ($500-$2000)"⟩, ⟨.num 5000, "បំណុលច្រើន (>$2000)"⟩] },
    { id := 4, question := "🏦 តើអ្នកមានលុយសន្សំប៉ុន្មាន?",
      options := [⟨.num 0, "គ្មានសន្សំ"⟩, ⟨.num 100, "តិចជាង $100"⟩,
        ⟨.num 500, "$100-$500"⟩, ⟨.num 1000, "លើស $500"⟩] },
    { id := 5, question := "🎯 គោលដៅហិរញ្ញវត្ថុចម្បងរបស់អ្នកជាអ្វី?",
      options := [⟨.tag "emergency", "បង្កើត Emergency Fund"⟩, ⟨.tag "debt", "ការពារបំណុល"⟩,
        ⟨.tag "save", "សន្សំលុយបន្ថែម"⟩, ⟨.tag "invest", "ចាប់ផ្តើមវិនិយោគ"⟩] } ]

/-- The read `financialQuiz.questions[questionNum - 1]`; index `-1` (for `questionNum = 0`) and
indices past the end give `undefined`. -/
def questionAt (questionNum : Nat) : Option Question :=
  if questionNum = 0 then none else financialQuiz.questions[questionNum - 1]?

/-- The `answers` object of a session; the key `q${n}` is represented by `n`. -/
abbrev Answers := List (Nat × AnswerValue)

/-- A value of the `quizState` Map (lines 82-86). -/
structure QuizSession where
  currentQuestion : Nat
  answers : Answers
  startTime : Nat
deriving DecidableEq, Repr

/-- The `quizState` Map: user id to session. -/
abbrev QuizState := List (Nat × QuizSession)

/-- The parts of a Telegram message the quiz reads: `msg.from.id`, `msg.chat.id`, `msg.text`
(which may be missing). -/
structure Msg where
  fromId : Nat
  chatId : Nat
  text : Option JSString
deriving DecidableEq, Repr

/-- The texts the quiz sends, by the template they are an instance of. -/
inductive QuizMessage where
  /-- The `introMessage` of `startQuiz`. -/
  | intro
  /-- The `questionMessage` of `askQuestion` for question number `questionNum`. -/
  | question (questionNum : Nat) (q : Question)
  /-- The re-prompt of line 150, naming the range `(1-${question.options.length})`. -/
  | invalid (optionCount : Nat)
  /-- The `resultMessage` of `showResults`, computed from `answers`. -/
  | results (answers : Answers)
deriving DecidableEq, Repr

/-- Errors a quiz call can end with: a `TypeError` of the code itself, or the error of a
failed send. -/
inductive QuizError (ε : Type) where
  | typeError
  | send (e : ε)
deriving DecidableEq, Repr

/-! ## `parseInt` -/

/-- Value of a code unit as a digit: `0-9`, `a-z`, `A-Z`. -/
def digitValue (c : Nat) : Option Nat :=
  if 0x30 ≤ c ∧ c ≤ 0x39 then some (c - 0x30)
  else if 0x61 ≤ c ∧ c ≤ 0x7A then some (c - 0x61 + 10)
  else if 0x41 ≤ c ∧ c ≤ 0x5A then some (c - 0x41 + 10)
  else none

/-- The code unit is a digit of radix `radix`. -/
def isRadixDigit (radix : Nat) (c : Nat) : Bool :=
  match digitValue c with
  | some d => d < radix
  | none => false

/-- Number written by the digits `ds` in radix `radix`. -/
def digitsValue (radix : Nat) (ds : List Nat) : Nat :=
  ds.foldl (fun acc c => acc * radix + (digitValue c).getD 0) 0

/-- Function `parseInt(s)` with no radix argument (ECMAScript 19.2.5): skip leading white space, read
a sign, read a `0x`/`0X` prefix (radix 16, otherwise 10), take the longest run of digits;
`none` is `NaN`.  The result is the integer read; the code only compares it with small
integers, for which the rounding of huge values to a double changes nothing. -/
def parseInt (s : JSString) : Option Int :=
  let s1 := s.dropWhile isWhiteSpace
  let negative : Bool := s1.head? = some 0x2D
  let s2 := if s1.head? = some 0x2D ∨ s1.head? = some 0x2B then s1.tail else s1
  let hex : Bool := s2.take 2 = [0x30, 0x78] ∨ s2.take 2 = [0x30, 0x58]
  let radix := if hex then 16 else 10
  let s3 := if hex then s2.drop 2 else s2
  let z := s3.takeWhile (isRadixDigit radix)
  if z = [] then none
  else some (if negative then -(digitsValue radix z : Int) else (digitsValue radix z : Int))

/-- ASCII letters `a-z` to `A-Z`, every other code unit unchanged: what `toUpperCase` does
to a text whose letters are ASCII.  Used to run the quiz on concrete messages. -/
def asciiUpper (s : JSString) : JSString :=
  s.map (fun c => if 0x61 ≤ c ∧ c ≤ 0x7A then c - 0x20 else c)

/-- The decimal numeral of `n`, as `String(n)` writes it. -/
def numeral (n : Nat) : JSString := js (toString n)

/-! ## `src/financial-quiz.js`: the quiz flow -/

/-- What a quiz call leaves behind: the `quizState` Map, and the sends (see `Run`). -/
structure QuizRun (ε σ : Type) where
  quizState : QuizState
  calls : List (Nat × QuizMessage)
  world : σ
  result : Outcome (QuizError ε) Bool
deriving DecidableEq, Repr

/-- Function `askQuestion(msg, bot, questionNum)` (lines 165-182). -/
def askQuestion {ε σ : Type} (sendMessage : SendMessage QuizMessage ε σ) (msg : Msg)
    (questionNum : Nat) (w : σ) : Run QuizMessage (QuizError ε) σ Unit :=
  match questionAt questionNum with
  | none => ⟨[], w, .error .typeError⟩
  | some question =>
    match sendMessage w msg.chatId (.question questionNum question) with
    | (w1, some error) => ⟨[(msg.chatId, .question questionNum question)], w1, .error (.send error)⟩
    | (w1, none) => ⟨[(msg.chatId, .question questionNum question)], w1, .ok ()⟩

/-- Function `showResults(msg, bot, answers)` (lines 191-327) as far as sending goes: the report is
sent; the follow-up is left to a timer. -/
def showResults {ε σ : Type} (sendMessage : SendMessage QuizMessage ε σ) (msg : Msg)
    (answers : Answers) (w : σ) : Run QuizMessage (QuizError ε) σ Unit :=
  match sendMessage w msg.chatId (.results answers) with
  | (w1, some error) => ⟨[(msg.chatId, .results answers)], w1, .error (.send error)⟩
  | (w1, none) => ⟨[(msg.chatId, .results answers)], w1, .ok ()⟩

/-- Line 114, `msg.text ? msg.text.toUpperCase() : ""`; the empty string is falsy. -/
def upperText (toUpperCase : JSString → JSString) (msg : Msg) : JSString :=
  match msg.text with
  | some t => if t ≠ [] then toUpperCase t else []
  | none => []

/-- The test `answerIndex >= 0 && answerIndex < length` for `answerIndex = parseInt(text) - 1`
(lines 130-132), giving the index when the test passes; every comparison with `NaN` is
false. -/
def validAnswerIndex (text : JSString) (length : Nat) : Option Nat :=
  match parseInt text with
  | none => none
  | some n => if n - 1 ≥ 0 ∧ n - 1 < (length : Int) then some (n - 1).toNat else none

/-- Function `processQuizResponse(msg, bot)` (lines 112-157) on the `quizState` Map `quizState`.
`toUpperCase` is `String.prototype.toUpperCase` of the runtime. -/
def processQuizResponse {ε σ : Type} (toUpperCase : JSString → JSString)
    (sendMessage : SendMessage QuizMessage ε σ) (quizState : QuizState) (msg : Msg) (w : σ) :
    QuizRun ε σ :=
  let userId := msg.fromId
  let text := upperText toUpperCase msg
  match lookup userId quizState with
  | none => ⟨quizState, [], w, .ok false⟩
  | some state =>
    if text = js "READY" ∧ state.currentQuestion = 1 then
      let r := askQuestion sendMessage msg 1 w
      match r.result with
      | .ok _ => ⟨quizState, r.calls, r.world, .ok true⟩
      | .error e => ⟨quizState, r.calls, r.world, .error e⟩
    else
      let questionNum := state.currentQuestion
      match questionAt questionNum with
      | none => ⟨quizState, [], w, .ok false⟩
      | some question =>
        match validAnswerIndex text question.options.length with
        | some answerIndex =>
          match question.options[answerIndex]? with
          | none => ⟨quizState, [], w, .error .typeError⟩
          | some option =>
            let state1 : QuizSession :=
              { state with
                answers := assign questionNum option.value state.answers
                currentQuestion := state.currentQuestion + 1 }
            let quizState1 := assign userId state1 quizState
            if state1.currentQuestion ≤ financialQuiz.questions.length then
              let r := askQuestion sendMessage msg state1.currentQuestion w
              match r.result with
              | .ok _ => ⟨quizState1, r.calls, r.world, .ok true⟩
              | .error e => ⟨quizState1, r.calls, r.world, .error e⟩
            else
              let r := showResults sendMessage msg state1.answers w
              match r.result with
              | .ok _ => ⟨remove userId quizState1, r.calls, r.world, .ok true⟩
              | .error e => ⟨quizState1, r.calls, r.world, .error e⟩
        | none =>
          match sendMessage w msg.chatId (.invalid question.options.length) with
          | (w1, some error) =>
            ⟨quizState, [(msg.chatId, .invalid question.options.length)], w1, .error (.send error)⟩
          | (w1, none) =>
            ⟨quizState, [(msg.chatId, .invalid question.options.length)], w1, .ok true⟩

/-! ## `src/financial-quiz.js`: the report of `showResults`

Numbers are rationals.  The answers the quiz can store are the small integers of the
option table; the only operations applied to them are `-`, `/`, `*` and comparisons.  The
code computes in doubles: `scoreDouble` below is the same computation with every operation
rounded, and it gives the score of this exact model on the option table, not on all
numbers (`scoreDouble_option_values`, `scoreDouble_rounding`). -/

/-- Value read by `answers.qk || 0` for a numeric answer: a missing answer, `0` and `""` give
`0`.  A non-empty string there would make the arithmetic of `showResults` string
arithmetic, which is not modelled: `none`. -/
def numberOrZero : Option AnswerValue → Option ℚ
  | none => some 0
  | some (.num n) => some n
  | some (.tag s) => if s = "" then some 0 else none

/-- Value read by `answers.q5 || "save"`: a missing answer, `""` and `0` give `"save"`.
A non-zero number there is not a tag: `none`. -/
def goalOrSave : Option AnswerValue → Option String
  | none => some "save"
  | some (.tag s) => if s = "" then some "save" else some s
  | some (.num n) => if n = 0 then some "save" else none

/-- Line 199: `income > 0 ? ((income - expenses) / income) * 100 : 0`. -/
def savingsRate (income expenses : ℚ) : ℚ :=
  if income > 0 then ((income - expenses) / income) * 100 else 0

/-- Line 200: `expenses * 3`. -/
def emergencyFundTarget (expenses : ℚ) : ℚ := expenses * 3

/-- Line 201: `income > 0 ? (debt / income) * 100 : 0`. -/
def debtRatio (income debt : ℚ) : ℚ :=
  if income > 0 then (debt / income) * 100 else 0

/-- The variable `score` of `showResults` after lines 203-239; every `score += k` gives the
next value of the variable. -/
def score (income expenses debt savings : ℚ) : ℕ :=
  let savingsRate := savingsRate income expenses
  let emergencyFundTarget := emergencyFundTarget expenses
  let debtRatio := debtRatio income debt
  let score := 0
  let score :=
    if savingsRate ≥ 20 then score + 25
    else if savingsRate ≥ 10 then score + 15
    else if savingsRate > 0 then score + 10
    else score
  let score :=
    if savings ≥ emergencyFundTarget then score + 30
    else if savings ≥ expenses then score + 20
    else if savings > 0 then score + 10
    else score
  let score :=
    if debt = 0 then score + 25
    else if debtRatio < 30 then score + 15
    else if debtRatio < 50 then score + 10
    else score
  let score :=
    if income > expenses then score + 20
    else score
  score

/-- The entries pushed to `strengths`. -/
inductive Strength where
  | goodSavingsRate
  | emergencyFundReady
  | noDebt
  | incomeAboveExpenses
deriving DecidableEq, Repr

/-- The variable `strengths` of `showResults` after lines 203-239. -/
def strengths (income expenses debt savings : ℚ) : List Strength := Id.run do
  let mut strengths := []
  if savingsRate income expenses ≥ 20 then
    strengths := strengths ++ [Strength.goodSavingsRate]
  if savings ≥ emergencyFundTarget expenses then
    strengths := strengths ++ [Strength.emergencyFundReady]
  if debt = 0 then
    strengths := strengths ++ [Strength.noDebt]
  if income > expenses then
    strengths := strengths ++ [Strength.incomeAboveExpenses]
  return strengths

/-- The entries pushed to `recommendations`. -/
inductive Recommendation where
  | raiseSavingsRate
  | buildEmergencyFund (target : ℚ)
  | planDebtRepayment
  | improveIncome
  | focusEmergencyFund
  | focusDebt
  | focusSavings
  | emergencyFundBeforeInvesting
deriving DecidableEq, Repr

/-- The variable `recommendations` of `showResults` after lines 242-265. -/
def recommendations (income expenses debt savings : ℚ) (goal : String) :
    List Recommendation := Id.run do
  let savingsRate := savingsRate income expenses
  let emergencyFundTarget := emergencyFundTarget expenses
  let mut recommendations := []
  if savingsRate < 10 then
    recommendations := recommendations ++ [Recommendation.raiseSavingsRate]
  if savings < emergencyFundTarget then
    recommendations := recommendations ++ [Recommendation.buildEmergencyFund emergencyFundTarget]
  if debt > 0 then
    recommendations := recommendations ++ [Recommendation.planDebtRepayment]
  if income ≤ expenses then
    recommendations := recommendations ++ [Recommendation.improveIncome]
  if goal = "emergency" ∧ savings < emergencyFundTarget then
    recommendations := recommendations ++ [Recommendation.focusEmergencyFund]
  else if goal = "debt" ∧ debt > 0 then
    recommendations := recommendations ++ [Recommendation.focusDebt]
  else if goal = "save" ∧ savingsRate < 20 then
    recommendations := recommendations ++ [Recommendation.focusSavings]
  else if goal = "invest" ∧ savings < emergencyFundTarget then
    recommendations := recommendations ++ [Recommendation.emergencyFundBeforeInvesting]
  return recommendations

/-- The four values of `healthLevel`. -/
inductive HealthLevel where
  | best
  | good
  | needsImprovement
  | needsDevelopment
deriving DecidableEq, Repr

/-- Lines 268-281: the label for a score. -/
def healthLevel (score : ℕ) : HealthLevel :=
  if score ≥ 80 then .best
  else if score ≥ 60 then .good
  else if score ≥ 40 then .needsImprovement
  else .needsDevelopment

/-- What `resultMessage` is filled with. -/
structure ScoreResult where
  score : ℕ
  healthLevel : HealthLevel
  savingsRate : ℚ
  emergencyFundTarget : ℚ
  debtRatio : ℚ
  strengths : List Strength
  recommendations : List Recommendation
deriving DecidableEq, Repr

/-- The computation of `showResults` (lines 192-281) on the answers it is given. -/
def scoreResult (answers : Answers) : Option ScoreResult :=
  match numberOrZero (lookup 1 answers), numberOrZero (lookup 2 answers),
    numberOrZero (lookup 3 answers), numberOrZero (lookup 4 answers),
    goalOrSave (lookup 5 answers) with
  | some income, some expenses, some debt, some savings, some goal =>
    some
      { score := score income expenses debt savings
        healthLevel := healthLevel (score income expenses debt savings)
        savingsRate := savingsRate income expenses
        emergencyFundTarget := emergencyFundTarget expenses
        debtRatio := debtRatio income debt
        strengths := strengths income expenses debt savings
        recommendations := recommendations income expenses debt savings goal }
  | _, _, _, _, _ => none

/-- The `value`s of the options of question `questionNum`. -/
def optionValues (questionNum : Nat) : List AnswerValue :=
  match questionAt questionNum with
  | some question => question.options.map (fun o => o.value)
  | none => []

/-- The score as the specification words it: four components added up. -/
def specScore (income expenses debt savings : ℚ) : ℕ :=
  let savingsRate : ℚ := if income > 0 then (income - expenses) / income * 100 else 0
  let emergencyTarget : ℚ := expenses * 3
  let debtRatio : ℚ := if income > 0 then debt / income * 100 else 0
  (if savingsRate ≥ 20 then 25 else if savingsRate ≥ 10 then 15 else if savingsRate > 0 then 10
    else 0)
  + (if savings ≥ emergencyTarget then 30 else if savings ≥ expenses then 20
    else if savings > 0 then 10 else 0)
  + (if debt = 0 then 25 else if debtRatio < 30 then 15 else if debtRatio < 50 then 10 else 0)
  + (if income > expenses then 20 else 0)

/-! ## `src/access-control.js` -/

/-- A record of the user store, as far as `checkAccess` reads it. -/
structure User where
  telegramId : Nat
  isPaid : Bool
  tier : Option String
deriving DecidableEq, Repr

/-- The object `checkAccess` returns; `message` and `user` are present on some paths only. -/
structure AccessResult where
  hasAccess : Bool
  userTier : String
  message : Option String
  user : Option User
deriving DecidableEq, Repr

/-- Line 41: `user.tier || "essential"`; a missing tier and `""` are falsy. -/
def tierOrEssential (user : User) : String :=
  match user.tier with
  | some t => if t ≠ "" then t else "essential"
  | none => "essential"

/-- The denial returned by the `catch` block (lines 60-64). -/
def genericDenial : AccessResult :=
  { hasAccess := false, userTier := "free", message := some "❌ មានបញ្ហា។ សូមសាកល្បងម្តងទៀត។",
    user := none }

/-- Function `checkAccess(telegramId, feature)` (lines 20-66).  `findOne` is `User.findOne` of the user
store; `hasFeatureAccess` and `getTierBadge` are the methods of the tier manager; each of them
may throw. -/
def checkAccess {ε : Type} (findOne : Nat → Outcome ε (Option User))
    (hasFeatureAccess : String → String → Outcome ε Bool)
    (getTierBadge : String → Outcome ε String) (telegramId : Nat) (feature : String) :
    AccessResult :=
  match findOne telegramId with
  | .error _ => genericDenial
  | .ok none =>
    { hasAccess := false, userTier := "free",
      message := some "🔒 សូមចុះឈ្មោះជាមុនសិន។ ប្រើ /start ដើម្បីចាប់ផ្តើម។", user := none }
  | .ok (some user) =>
    if !user.isPaid then
      { hasAccess := false, userTier := "free",
        message := some "🔒 សូមទូទាត់មុនដើម្បីចូលរួមកម្មវិធី។ ប្រើ /pricing ដើម្បីមើលព័ត៌មាន។",
        user := none }
    else
      let userTier := tierOrEssential user
      match hasFeatureAccess userTier feature with
      | .error _ => genericDenial
      | .ok hasAccess =>
        if !hasAccess then
          match getTierBadge userTier with
          | .error _ => genericDenial
          | .ok tierBadge =>
            { hasAccess := false, userTier := userTier,
              message := some (tierBadge ++
                " មុខងារនេះត្រូវការកម្រិតខ្ពស់ជាង។ ប្រើ /pricing ដើម្បីមើលការ upgrade។"),
              user := none }
        else
          { hasAccess := true, userTier := userTier, message := none, user := some user }

/-- Lines 134-135 on a session: the answer `value` stored under the current question's key,
the index moved on by one. -/
def QuizSession.answered (state : QuizSession) (value : AnswerValue) : QuizSession :=
  { state with
    answers := assign state.currentQuestion value state.answers
    currentQuestion := state.currentQuestion + 1 }

/-! ## Transports and sessions used in examples -/

/-- A transport on which every send succeeds. -/
def delivers (μ : Type) : SendMessage μ String Unit := fun _ _ _ => ((), none)

/-- A transport on which every send fails, as when the user has blocked the bot. -/
def blocked (μ : Type) : SendMessage μ String Unit := fun _ _ _ => ((), some "blocked")

/-- A session map with one user, 7, who is at question `i` with the answers `answers`. -/
def oneSession (i : Nat) (answers : Answers) : QuizState := [(7, ⟨i, answers, 0⟩)]

/-- A message of user 7 with the text `text`. -/
def textFrom7 (text : String) : Msg := ⟨7, 7, some (js text)⟩

/-! ## `src/message-splitter.js`: part markers -/

/-- The four code units that open `partInfo` in the source (line 110), a mis-encoded emoji:
U+F8FF U+00FC U+00EC U+00F9. -/
def partIcon : JSString := [0xF8FF, 0xFC, 0xEC, 0xF9]

/-- Line 110, the template literal of `partInfo`: icon, space, `partPrefix`, space,
`index + 1`, slash, `chunks.length`, two line feeds. -/
def partInfo (partPrefix : JSString) (index length : Nat) : JSString :=
  partIcon ++ [SP] ++ partPrefix ++ [SP] ++ numeral (index + 1) ++ js "/" ++ numeral length
    ++ [LF, LF]

/-- Function `splitMessageWithParts(message, partPrefix)` (lines 102-113). -/
def splitMessageWithParts (message : JSString) (partPrefix : JSString := js "Part") :
    List JSString :=
  let chunks := splitMessage message
  if chunks.length = 1 then chunks
  else chunks.mapIdx (fun index chunk => partInfo partPrefix index chunks.length ++ chunk)

/-- The marker of part `i` of `N` (`i` counted from 1) as the specification words it: the
icon, the prefix and `i/N`, followed by a blank line. -/
def partMarker (p : JSString) (i N : Nat) : JSString :=
  partIcon ++ js " " ++ p ++ js " " ++ numeral i ++ js "/" ++ numeral N ++ [LF] ++ [LF]

/-! ## `src/financial-quiz.js`: starting and routing -/

/-- What `startQuiz` leaves behind: the `quizState` Map, and the sends (see `Run`). -/
structure StartRun (ε σ : Type) where
  quizState : QuizState
  calls : List (Nat × QuizMessage)
  world : σ
  result : Outcome (QuizError ε) Unit
deriving DecidableEq, Repr

/-- Function `startQuiz(msg, bot)` (lines 78-103) on the `quizState` Map `quizState`; `now` is
the value of `new Date()`. -/
def startQuiz {ε σ : Type} (sendMessage : SendMessage QuizMessage ε σ) (quizState : QuizState)
    (msg : Msg) (now : Nat) (w : σ) : StartRun ε σ :=
  let userId := msg.fromId
  let quizState1 := assign userId { currentQuestion := 1, answers := [], startTime := now }
    quizState
  match sendMessage w msg.chatId .intro with
  | (w1, some error) => ⟨quizState1, [(msg.chatId, .intro)], w1, .error (.send error)⟩
  | (w1, none) => ⟨quizState1, [(msg.chatId, .intro)], w1, .ok ()⟩

/-- Method `s.includes(sub)`: `sub` occurs in `s` at some position. -/
def includes : JSString → JSString → Bool
  | [], sub => sub.isPrefixOf []
  | c :: rest, sub => sub.isPrefixOf (c :: rest) || includes rest sub

/-- Function `isQuizMessage(msg)` (lines 335-347) on the `quizState` Map `quizState`.
`toUpperCase` is `String.prototype.toUpperCase` of the runtime. -/
def isQuizMessage (toUpperCase : JSString → JSString) (quizState : QuizState) (msg : Msg) :
    Bool :=
  let userId := msg.fromId
  let text := upperText toUpperCase msg
  if (lookup userId quizState).isSome then true
  else if text = js "READY" ∨ text = js "START QUIZ" ∨ includes text (js "QUIZ") = true then
    true
  else false

/-- The text and the emoji shown for a health level (lines 268-281). -/
def HealthLevel.shown : HealthLevel → String × String
  | .best => ("ល្អបំផុត", "🟢")
  | .good => ("ល្អ", "🟡")
  | .needsImprovement => ("ត្រូវកែលម្អ", "🟠")
  | .needsDevelopment => ("ត្រូវការអភិវឌ្ឍន៍", "🔴")

/-! ## Sequences of quiz calls -/

/-- One call into the quiz from the command layer. -/
inductive QuizCall where
  | startQuiz (msg : Msg) (now : Nat)
  | processQuizResponse (msg : Msg)
deriving DecidableEq, Repr

/-- State of the quiz and of the transport between calls, with every message sent so far. -/
structure QuizTrace (σ : Type) where
  quizState : QuizState
  world : σ
  sent : List (Nat × QuizMessage)
deriving DecidableEq, Repr

/-- One call, made on the `quizState` Map and the transport state the previous calls left. -/
def runCall {ε σ : Type} (toUpperCase : JSString → JSString)
    (sendMessage : SendMessage QuizMessage ε σ) (t : QuizTrace σ) : QuizCall → QuizTrace σ
  | .startQuiz msg now =>
    let r := startQuiz sendMessage t.quizState msg now t.world
    ⟨r.quizState, r.world, t.sent ++ r.calls⟩
  | .processQuizResponse msg =>
    let r := processQuizResponse toUpperCase sendMessage t.quizState msg t.world
    ⟨r.quizState, r.world, t.sent ++ r.calls⟩

/-- A sequence of calls made one after the other, starting from the empty `quizState` Map. -/
def runCalls {ε σ : Type} (toUpperCase : JSString → JSString)
    (sendMessage : SendMessage QuizMessage ε σ) (w : σ) (calls : List QuizCall) :
    QuizTrace σ :=
  calls.foldl (runCall toUpperCase sendMessage) ⟨[], w, []⟩

/-- A session is well formed: its index is a question number, its answers are exactly those
of the questions before the index, and each is a value of an option of its question. -/
def QuizSession.wellFormed (s : QuizSession) : Prop :=
  1 ≤ s.currentQuestion ∧ s.currentQuestion ≤ financialQuiz.questions.length ∧
  (∀ k, (lookup k s.answers).isSome = true ↔ 1 ≤ k ∧ k < s.currentQuestion) ∧
  ∀ k v, lookup k s.answers = some v → v ∈ optionValues k

/-- An answer map holds all five answers, each a value of an option of its question. -/
def allAnswered (answers : Answers) : Prop :=
  ∀ k, 1 ≤ k → k ≤ financialQuiz.questions.length →
    ∃ v, lookup k answers = some v ∧ v ∈ optionValues k

/-- What holds between calls: every stored session is well formed, and every report sent so
far was computed from an answer map holding all five answers. -/
def QuizTrace.sound {σ : Type} (t : QuizTrace σ) : Prop :=
  (∀ p ∈ t.quizState, p.2.wellFormed) ∧
  ∀ chatId answers, (chatId, QuizMessage.results answers) ∈ t.sent → allAnswered answers

/-! ## A user store and a tier manager used in examples -/

/-- A user store in which every user exists, has tier `vip` and has not paid. -/
def unpaidStore : Nat → Outcome String (Option User) :=
  fun telegramId => .ok (some ⟨telegramId, false, some "vip"⟩)

/-- A capability table that grants every feature to every tier. -/
def grantsAll : String → String → Outcome String Bool := fun _ _ => .ok true

/-- A badge function that shows the tier name. -/
def tierName : String → Outcome String String := fun tier => .ok tier

/-- User 7 starts the quiz, sends `ready` and answers the five questions with 3, 3, 1, 4, 3;
then starts again and answers question 1 with 2. -/
def quizOfUser7 : List QuizCall :=
  [.startQuiz (textFrom7 "quiz") 0, .processQuizResponse (textFrom7 "ready"),
   .processQuizResponse (textFrom7 "3"), .processQuizResponse (textFrom7 "3"),
   .processQuizResponse (textFrom7 "1"), .processQuizResponse (textFrom7 "4"),
   .processQuizResponse (textFrom7 "3"), .startQuiz (textFrom7 "quiz") 9,
   .processQuizResponse (textFrom7 "2")]

/-! ## Bounds on the loop variables of the splitter -/

/-- The loop variables respect `maxLength`: every pushed chunk and the pending chunk are at
most `maxLength` long. -/
def SplitState.within (maxLength : Nat) (st : SplitState) : Prop :=
  (∀ chunk ∈ st.chunks, chunk.length ≤ maxLength) ∧ st.currentChunk.length ≤ maxLength

/-- A message of two lines of 4096 letters `a` each. -/
def twoFullLines : JSString := List.replicate 4096 97 ++ LF :: List.replicate 4096 97

/-- A message of three lines of 4096 letters each: `a`, then `b`, then `c`. -/
def threeFullLines : JSString :=
  List.replicate 4096 97 ++ LF :: (List.replicate 4096 98 ++ LF :: List.replicate 4096 99)

/-- A transport that counts its calls and rejects the second one; every other send
succeeds. -/
def failsOnSecond : SendMessage JSString String Nat :=
  fun calls _ _ => (calls + 1, if calls = 1 then some "blocked" else none)

/-- The tier of a user as the specification words it: `t` is the tier stored on the user, or
`essential` when no tier is set (the field is missing or is the empty string). -/
def User.tierIs (user : User) (t : String) : Prop :=
  (user.tier = some t ∧ t ≠ "") ∨ ((user.tier = none ∨ user.tier = some "") ∧ t = "essential")

/-- A user store of paid users: user 7 has tier `premium`, every other user has no tier. -/
def paidStore : Nat → Outcome String (Option User) :=
  fun telegramId => .ok (some ⟨telegramId, true, if telegramId = 7 then some "premium" else none⟩)

/-- A capability table that grants every feature to the tier `tier` and to no other. -/
def grantsOnly (tier : String) : String → String → Outcome String Bool :=
  fun userTier _ => .ok (userTier == tier)

/-! ## JavaScript numbers: the report's arithmetic in IEEE 754 doubles

`showResults` computes with JavaScript numbers, which are IEEE 754 binary64 values: every
`-`, `*` and `/` gives the double nearest to the exact result (ties to the even significand).
The definitions below model the finite doubles and that rounding.  Infinity and NaN are not
values of the model: `showResults` divides only by a positive income, and an overflow needs
magnitudes beyond 1.7e308. -/

/-- A finite double: the number `mant * 2 ^ exp`. -/
structure Double where
  mant : Int
  exp : Int
deriving Repr

/-- Halving `n` until it is below 2, at most `fuel` times, counting the halvings. -/
def floorLog2Aux : Nat → Nat → Nat
  | 0, _ => 0
  | fuel + 1, n => if n < 2 then 0 else floorLog2Aux fuel (n / 2) + 1

/-- The position of the highest set bit of `n`: the largest `k` with `2 ^ k ≤ n`, for
`n > 0`. -/
def floorLog2 (n : Nat) : Nat := floorLog2Aux n n

/-- The double nearest to the fraction `n / d` (`d > 0`), negated when `negative`: round to
nearest, ties to even, with 53 significant bits, and with the spacing `2 ^ (-1074)` of the
subnormal numbers below `2 ^ (-1022)`. -/
def roundRatio (negative : Bool) (n d : Nat) : Double :=
  if n = 0 then ⟨0, 0⟩
  else
    let e0 : Int := (floorLog2 n : Int) - (floorLog2 d : Int)
    -- the exponent of `n / d`, that is the `e` with `2 ^ e ≤ n / d < 2 ^ (e + 1)`
    let e : Int := if n * 2 ^ (-e0).toNat < d * 2 ^ e0.toNat then e0 - 1 else e0
    let e : Int := if e < -1022 then -1022 else e
    -- the result is a multiple of `2 ^ (e - 52) = 2 ^ (-shift)`
    let shift : Int := 52 - e
    let num := n * 2 ^ shift.toNat
    let den := d * 2 ^ (-shift).toNat
    let q := num / den
    let r := num % den
    let m :=
      if 2 * r < den then q
      else if 2 * r > den then q + 1
      else if q % 2 = 0 then q
      else q + 1
    ⟨if negative then -(m : Int) else (m : Int), -shift⟩

/-- Numerator of the value of a double over the denominator `Double.den`. -/
def Double.num (x : Double) : Int := x.mant * 2 ^ x.exp.toNat

/-- Denominator of the value of a double: a power of two. -/
def Double.den (x : Double) : Nat := 2 ^ (-x.exp).toNat

/-- The value of a double as a rational number. -/
def Double.toRat (x : Double) : ℚ := (x.num : ℚ) / (x.den : ℚ)

/-- The double a number written in the source or stored as an answer stands for. -/
def Double.ofRat (q : ℚ) : Double := roundRatio (decide (q.num < 0)) q.num.natAbs q.den

/-- The operator `x - y` on doubles. -/
def Double.sub (x y : Double) : Double :=
  let k : Int := x.num * y.den - y.num * x.den
  roundRatio (decide (k < 0)) k.natAbs (x.den * y.den)

/-- The operator `x * y` on doubles. -/
def Double.mul (x y : Double) : Double :=
  let k : Int := x.num * y.num
  roundRatio (decide (k < 0)) k.natAbs (x.den * y.den)

/-- The operator `x / y` on doubles, for `y` other than zero (a division by zero gives
Infinity or NaN, which `showResults` never reaches: it divides under `income > 0`). -/
def Double.div (x y : Double) : Double :=
  let k : Int := if y.num < 0 then -(x.num * y.den) else x.num * y.den
  roundRatio (decide (k < 0)) k.natAbs (x.den * y.num.natAbs)

/-- The comparison `x < y` on doubles. -/
def Double.lt (x y : Double) : Bool := decide (x.num * y.den < y.num * x.den)

/-- The comparison `x <= y` on doubles. -/
def Double.le (x y : Double) : Bool := decide (x.num * y.den ≤ y.num * x.den)

/-- The comparison `x === y` on doubles. -/
def Double.eq (x y : Double) : Bool := decide (x.num * y.den = y.num * x.den)

/-- The variable `score` of `showResults` after lines 199-239, computed in doubles as the
code computes it; every `score += k` gives the next value of the variable. -/
def scoreDouble (income expenses debt savings : Double) : ℕ :=
  let savingsRate :=
    if Double.lt (.ofRat 0) income then
      Double.mul (Double.div (Double.sub income expenses) income) (.ofRat 100)
    else .ofRat 0
  let emergencyFundTarget := Double.mul expenses (.ofRat 3)
  let debtRatio :=
    if Double.lt (.ofRat 0) income then Double.mul (Double.div debt income) (.ofRat 100)
    else .ofRat 0
  let score := 0
  let score :=
    if Double.le (.ofRat 20) savingsRate then score + 25
    else if Double.le (.ofRat 10) savingsRate then score + 15
    else if Double.lt (.ofRat 0) savingsRate then score + 10
    else score
  let score :=
    if Double.le emergencyFundTarget savings then score + 30
    else if Double.le expenses savings then score + 20
    else if Double.lt (.ofRat 0) savings then score + 10
    else score
  let score :=
    if Double.eq debt (.ofRat 0) then score + 25
    else if Double.lt debtRatio (.ofRat 30) then score + 15
    else if Double.lt debtRatio (.ofRat 50) then score + 10
    else score
  let score :=
    if Double.lt expenses income then score + 20
    else score
  score

/-! # Theorems

## Content of a text is preserved by the splitter -/

theorem strip_append (a b : JSString) : strip (a ++ b) = strip a ++ strip b := by
  simp [strip]

theorem strip_dropWhile (s : JSString) : strip (s.dropWhile isWhiteSpace) = strip s := by
  induction s with
  | nil => rfl
  | cons c cs ih =>
    by_cases h : isWhiteSpace c = true
    · simp only [List.dropWhile_cons, h, if_true, ih]
      simp [strip, h]
    · simp [List.dropWhile_cons, h]

theorem strip_reverse (s : JSString) : strip s.reverse = (strip s).reverse := by
  simp [strip, List.filter_reverse]

theorem strip_trim (s : JSString) : strip (trim s) = strip s := by
  simp only [trim, strip_reverse, strip_dropWhile, List.reverse_reverse]

theorem strip_take_drop (n : Nat) (s : JSString) :
    strip (s.take n) ++ strip (s.drop n) = strip s := by
  rw [← strip_append, List.take_append_drop]

theorem strip_nil : strip [] = [] := rfl

theorem strip_cons_SP (s : JSString) : strip (SP :: s) = strip s := by
  simp [strip, show isWhiteSpace SP = true by decide]

theorem strip_cons_LF (s : JSString) : strip (LF :: s) = strip s := by
  simp [strip, show isWhiteSpace LF = true by decide]

theorem strip_flatten_split (sep : Nat) (hsep : isWhiteSpace sep = true) (s : JSString) :
    strip (split sep s).flatten = strip s := by
  induction s with
  | nil => rfl
  | cons c cs ih =>
    by_cases h : c = sep
    · subst h
      simp only [split, if_true, List.flatten_cons, List.nil_append, ih]
      simp [strip, hsep]
    · simp only [split, h, if_false]
      cases hs : split sep cs with
      | nil =>
        rw [hs] at ih
        simp only [strip, List.flatten_nil, List.filter_nil, List.flatten_cons, List.append_nil,
          List.filter_cons] at ih ⊢
        rw [← ih]
      | cons w ws =>
        rw [hs] at ih
        simp only [List.flatten_cons, List.cons_append] at ih ⊢
        simp only [strip, List.filter_cons] at ih ⊢
        rw [ih]

theorem content_flush (st : SplitState) : (flush st).content = st.content := by
  unfold flush
  split
  · simp [SplitState.content, strip_append, strip_trim, strip_nil]
  · rfl

theorem content_wordStep (maxLength : Nat) (st : SplitState) (word : JSString) :
    (wordStep maxLength st word).content = st.content ++ strip word := by
  unfold wordStep
  split
  · split
    · simp [SplitState.content, strip_append, strip_trim]
    · next h =>
      have hc : st.currentChunk = [] := by simpa using h
      simp [SplitState.content, strip_append, hc, strip_take_drop, strip_nil]
  · split
    · simp [SplitState.content, strip_append, strip_cons_SP]
    · simp [SplitState.content, strip_append]

theorem content_foldl_wordStep (maxLength : Nat) (words : List JSString) (st : SplitState) :
    (words.foldl (wordStep maxLength) st).content = st.content ++ strip words.flatten := by
  induction words generalizing st with
  | nil => simp [strip_nil]
  | cons w ws ih =>
    simp [List.foldl_cons, ih, content_wordStep, strip_append]

theorem content_lineStep (maxLength : Nat) (st : SplitState) (line : JSString) :
    (lineStep maxLength st line).content = st.content ++ strip line := by
  unfold lineStep
  split
  · rw [content_foldl_wordStep, content_flush, strip_flatten_split SP (by decide)]
  · split
    · split
      · simp [SplitState.content, strip_append, strip_trim]
      · next h =>
        have hc : st.currentChunk = [] := by simpa using h
        simp [SplitState.content, strip_append, hc, strip_nil]
    · split
      · simp [SplitState.content, strip_append, strip_cons_LF]
      · simp [SplitState.content, strip_append]

theorem content_foldl_lineStep (maxLength : Nat) (lines : List JSString) (st : SplitState) :
    (lines.foldl (lineStep maxLength) st).content = st.content ++ strip lines.flatten := by
  induction lines generalizing st with
  | nil => simp [strip_nil]
  | cons l ls ih =>
    simp [List.foldl_cons, ih, content_lineStep, strip_append]

theorem chunks_flush_content (st : SplitState) :
    strip (flush st).chunks.flatten = st.content := by
  unfold flush
  split
  · simp [SplitState.content, strip_append, strip_trim]
  · next h =>
    have hc : st.currentChunk = [] := by simpa using h
    simp [SplitState.content, hc, strip_nil]

/-- C2: the segments of `splitMessage(T, L)`, concatenated in order and with all white space
deleted, are exactly `T` with all white space deleted, so no other code unit is lost,
duplicated or reordered.  (This holds for every `L`, in particular for every `L > 0`.) -/
theorem splitMessage_content (T : JSString) (L : Nat) :
    strip (splitMessage T L).flatten = strip T := by
  unfold splitMessage
  split
  · simp
  · rw [chunks_flush_content, content_foldl_lineStep, strip_flatten_split LF (by decide)]
    simp [SplitState.content, strip_nil]

/-! ## Maps -/

theorem lookup_assign_self {β : Type} (k : Nat) (v : β) (m : List (Nat × β)) :
    lookup k (assign k v m) = some v := by
  induction m with
  | nil => simp [assign, lookup]
  | cons p rest ih =>
    obtain ⟨k1, v1⟩ := p
    by_cases h : k1 = k
    · simp [assign, lookup, h]
    · simp [assign, lookup, h, ih]

theorem lookup_assign_other {β : Type} (k j : Nat) (v : β) (m : List (Nat × β)) (h : j ≠ k) :
    lookup j (assign k v m) = lookup j m := by
  induction m with
  | nil => simp [assign, lookup, Ne.symm h]
  | cons p rest ih =>
    obtain ⟨k1, v1⟩ := p
    by_cases h1 : k1 = k
    · subst h1
      simp [assign, lookup, Ne.symm h]
    · by_cases h2 : k1 = j
      · subst h2
        simp [assign, lookup, h]
      · simp [assign, lookup, h1, h2, ih]

theorem lookup_remove_self {β : Type} (k : Nat) (m : List (Nat × β)) :
    lookup k (remove k m) = none := by
  induction m with
  | nil => rfl
  | cons p rest ih =>
    obtain ⟨k1, v1⟩ := p
    by_cases h : k1 = k
    · simpa [remove, List.filter_cons, h] using ih
    · simpa [remove, List.filter_cons, h, lookup] using ih

theorem lookup_remove_other {β : Type} (k j : Nat) (m : List (Nat × β)) (h : j ≠ k) :
    lookup j (remove k m) = lookup j m := by
  induction m with
  | nil => rfl
  | cons p rest ih =>
    obtain ⟨k1, v1⟩ := p
    by_cases h1 : k1 = k
    · subst h1
      simpa [remove, List.filter_cons, lookup, Ne.symm h] using ih
    · by_cases h2 : k1 = j
      · subst h2
        simp [remove, List.filter_cons, lookup, h]
      · simpa [remove, List.filter_cons, h1, lookup, h2] using ih

/-! ## The quiz flow, branch by branch -/

theorem processQuizResponse_quizState {ε σ : Type} (toUpperCase : JSString → JSString)
    (sendMessage : SendMessage QuizMessage ε σ) (quizState : QuizState) (msg : Msg) (w : σ)
    (state : QuizSession) (hstate : lookup msg.fromId quizState = some state) :
    let r := processQuizResponse toUpperCase sendMessage quizState msg w
    r.quizState = quizState ∨
    ∃ value, r.quizState = assign msg.fromId (state.answered value) quizState ∨
      r.quizState = remove msg.fromId (assign msg.fromId (state.answered value) quizState) := by
  intro r
  simp only [r, processQuizResponse, hstate]
  repeat' split
  all_goals
    first
    | exact Or.inl rfl
    | exact Or.inr ⟨_, Or.inl rfl⟩
    | exact Or.inr ⟨_, Or.inr rfl⟩

/-! ## The splitter: segment length -/

/-- C1 (the code falls short of it): on the text `aaa` with `maxLength = 1` the forced split
pushes `a` and leaves `aa` pending, and the final flush pushes `aa`, a segment of length 2,
longer than `maxLength`.  Likewise on `ab cdefgh` with `maxLength = 3` the word `cdefgh`
becomes the pending chunk unchecked and is pushed whole. -/
theorem splitMessage_segment_too_long :
    splitMessage (js "aaa") 1 = [js "a", js "aa"] ∧
    (∃ segment ∈ splitMessage (js "aaa") 1, segment.length > 1) ∧
    splitMessage (js "ab cdefgh") 3 = [js "ab", js "cdefgh"] ∧
    (∃ segment ∈ splitMessage (js "ab cdefgh") 3, segment.length > 3) := by
  decide

/-! ## The access gate -/

theorem tierOrEssential_tierIs (user : User) (t : String) :
    user.tierIs t ↔ tierOrEssential user = t := by
  unfold User.tierIs tierOrEssential
  cases ht : user.tier with
  | none =>
    simp only [and_true, true_or, true_and, false_and, false_or, reduceCtorEq]
    exact eq_comm
  | some stored =>
    by_cases hempty : stored = ""
    · subst hempty
      simp only [Option.some.injEq, ne_eq, reduceCtorEq, false_or, true_and, not_true_eq_false,
        if_false]
      constructor
      · rintro (⟨h1, h2⟩ | h)
        · exact absurd h1.symm h2
        · exact h.symm
      · intro h
        exact Or.inr h.symm
    · simp only [Option.some.injEq, ne_eq, reduceCtorEq, false_or, hempty, false_and, or_false,
        not_false_eq_true, if_true]
      constructor
      · rintro ⟨h1, -⟩
        exact h1
      · intro h
        exact ⟨h, h ▸ hempty⟩

/-- C5: `checkAccess` grants access exactly when the lookup succeeds with a user record,
the user has paid and the capability table grants the feature to the tier `t` of the user,
`t` being the stored tier, or `essential` when no tier is set; it then returns `t` as
`userTier` together with the user record; and an error of the lookup or of the capability
check for `t` gives the generic denial (`hasAccess = false`, `userTier = "free"`), never
access and never an error to the caller. -/
theorem checkAccess_fails_closed {ε : Type} (findOne : Nat → Outcome ε (Option User))
    (hasFeatureAccess : String → String → Outcome ε Bool)
    (getTierBadge : String → Outcome ε String) (telegramId : Nat) (feature : String) :
    let r := checkAccess findOne hasFeatureAccess getTierBadge telegramId feature
    (r.hasAccess = true ↔
      ∃ user t, findOne telegramId = .ok (some user) ∧ user.isPaid = true ∧ user.tierIs t ∧
        hasFeatureAccess t feature = .ok true) ∧
    (∀ user t, findOne telegramId = .ok (some user) → user.isPaid = true → user.tierIs t →
        hasFeatureAccess t feature = .ok true →
        r.hasAccess = true ∧ r.userTier = t ∧ r.user = some user) ∧
    (∀ e, findOne telegramId = .error e →
        r = genericDenial ∧ r.hasAccess = false ∧ r.userTier = "free") ∧
    (∀ user t e, findOne telegramId = .ok (some user) → user.isPaid = true → user.tierIs t →
        hasFeatureAccess t feature = .error e →
        r = genericDenial ∧ r.hasAccess = false ∧ r.userTier = "free") := by
  intro r
  refine ⟨?_, ?_, ?_, ?_⟩
  · have hiff : r.hasAccess = true ↔
        ∃ user, findOne telegramId = .ok (some user) ∧ user.isPaid = true ∧
          hasFeatureAccess (tierOrEssential user) feature = .ok true := by
      simp only [r, checkAccess]
      cases hf : findOne telegramId with
      | error e => simp [genericDenial]
      | ok found =>
        cases found with
        | none => simp
        | some user =>
          cases hp : user.isPaid with
          | false => simp [hp]
          | true =>
            cases hh : hasFeatureAccess (tierOrEssential user) feature with
            | error e => simp [hp, hh, genericDenial]
            | ok granted =>
              cases granted with
              | true => simp [hp, hh]
              | false =>
                cases hb : getTierBadge (tierOrEssential user) <;>
                  simp [hp, hh, hb, genericDenial]
    rw [hiff]
    constructor
    · rintro ⟨user, hf, hp, hh⟩
      exact ⟨user, _, hf, hp, (tierOrEssential_tierIs user _).mpr rfl, hh⟩
    · rintro ⟨user, t, hf, hp, ht, hh⟩
      rw [← (tierOrEssential_tierIs user t).mp ht] at hh
      exact ⟨user, hf, hp, hh⟩
  · intro user t hf hp ht hh
    rw [← (tierOrEssential_tierIs user t).mp ht] at hh ⊢
    simp [r, checkAccess, hf, hp, hh]
  · intro e hf
    simp [r, checkAccess, hf, genericDenial]
  · intro user t e hf hp ht hh
    rw [← (tierOrEssential_tierIs user t).mp ht] at hh
    simp [r, checkAccess, hf, hp, hh, genericDenial]

/-- The grant of C5 read off the stored tier: user 7, paid, with tier `premium`, is granted a
feature by a table that grants only `premium`, and is returned with `userTier = "premium"`;
user 8, paid, with no tier, is granted by a table that grants only `essential`, and is
refused by the table that grants only `premium`. -/
theorem checkAccess_fails_closed_witness :
    paidStore 7 = .ok (some ⟨7, true, some "premium"⟩) ∧
    (⟨7, true, some "premium"⟩ : User).tierIs "premium" ∧
    ((checkAccess paidStore (grantsOnly "premium") tierName 7 "vip_tools").hasAccess = true ∧
      (checkAccess paidStore (grantsOnly "premium") tierName 7 "vip_tools").userTier
        = "premium" ∧
      (checkAccess paidStore (grantsOnly "premium") tierName 7 "vip_tools").user
        = some ⟨7, true, some "premium"⟩) ∧
    (⟨8, true, none⟩ : User).tierIs "essential" ∧
    ((checkAccess paidStore (grantsOnly "essential") tierName 8 "vip_tools").hasAccess = true ∧
      (checkAccess paidStore (grantsOnly "essential") tierName 8 "vip_tools").userTier
        = "essential" ∧
      (checkAccess paidStore (grantsOnly "essential") tierName 8 "vip_tools").user
        = some ⟨8, true, none⟩) ∧
    (checkAccess paidStore (grantsOnly "premium") tierName 8 "vip_tools").hasAccess = false :=
  ⟨rfl, Or.inl ⟨rfl, by decide⟩,
    (checkAccess_fails_closed paidStore (grantsOnly "premium") tierName 7 "vip_tools").2.1
      ⟨7, true, some "premium"⟩ "premium" rfl rfl (Or.inl ⟨rfl, by decide⟩) rfl,
    Or.inr ⟨Or.inl rfl, rfl⟩,
    (checkAccess_fails_closed paidStore (grantsOnly "essential") tierName 8 "vip_tools").2.1
      ⟨8, true, none⟩ "essential" rfl rfl (Or.inr ⟨Or.inl rfl, rfl⟩) rfl,
    by decide⟩

/-! ## The score -/

theorem ite3_add (p q r : Prop) [Decidable p] [Decidable q] [Decidable r] (x a b c : ℕ) :
    (if p then x + a else if q then x + b else if r then x + c else x)
      = x + (if p then a else if q then b else if r then c else 0) := by
  split_ifs <;> rfl

theorem ite1_add (p : Prop) [Decidable p] (x a : ℕ) :
    (if p then x + a else x) = x + (if p then a else 0) := by
  split_ifs <;> rfl

theorem ite3_le (p q r : Prop) [Decidable p] [Decidable q] [Decidable r] (a b c m : ℕ)
    (ha : a ≤ m) (hb : b ≤ m) (hc : c ≤ m) :
    (if p then a else if q then b else if r then c else 0) ≤ m := by
  split_ifs <;> simp [*]

theorem score_eq_components (income expenses debt savings : ℚ) :
    score income expenses debt savings = specScore income expenses debt savings := by
  unfold score specScore savingsRate emergencyFundTarget debtRatio
  dsimp only
  rw [ite1_add, ite3_add, ite3_add, ite3_add, Nat.zero_add]

theorem score_le_100 (income expenses debt savings : ℚ) :
    score income expenses debt savings ≤ 100 := by
  rw [score_eq_components]
  unfold specScore
  dsimp only
  have a := ite3_le (20 ≤ if income > 0 then (income - expenses) / income * 100 else 0)
    (10 ≤ if income > 0 then (income - expenses) / income * 100 else 0)
    (0 < if income > 0 then (income - expenses) / income * 100 else 0) 25 15 10 25
    (by norm_num) (by norm_num) (by norm_num)
  have b := ite3_le (expenses * 3 ≤ savings) (expenses ≤ savings) (0 < savings) 30 20 10 30
    (by norm_num) (by norm_num) (by norm_num)
  have c := ite3_le (debt = 0) ((if income > 0 then debt / income * 100 else 0) < 30)
    ((if income > 0 then debt / income * 100 else 0) < 50) 25 15 10 25
    (by norm_num) (by norm_num) (by norm_num)
  have d := ite3_le (expenses < income) False False 20 0 0 20
    (by norm_num) (by norm_num) (by norm_num)
  simp only [ge_iff_le, gt_iff_lt, if_false] at *
  omega

theorem optionValues_numeric (k : Nat) (hk : 1 ≤ k ∧ k ≤ 4) (value : AnswerValue)
    (h : value ∈ optionValues k) : ∃ n, value = .num n := by
  obtain ⟨h1, h4⟩ := hk
  interval_cases k <;>
    simp [optionValues, questionAt, financialQuiz.questions] at h <;>
    rcases h with rfl | rfl | rfl | rfl <;> exact ⟨_, rfl⟩

/-- C6: for answers taken from the options of questions 1-4 and any goal tag, `showResults`
computes a result whose score lies between 0 and 100, and the result is the same for every
answer map that holds the same five answers. -/
theorem showResults_score_bounds (answers : Answers)
    (income expenses debt savings : AnswerValue) (goal : String)
    (h1 : lookup 1 answers = some income) (hincome : income ∈ optionValues 1)
    (h2 : lookup 2 answers = some expenses) (hexpenses : expenses ∈ optionValues 2)
    (h3 : lookup 3 answers = some debt) (hdebt : debt ∈ optionValues 3)
    (h4 : lookup 4 answers = some savings) (hsavings : savings ∈ optionValues 4)
    (h5 : lookup 5 answers = some (.tag goal)) :
    ∃ r, scoreResult answers = some r ∧ 0 ≤ r.score ∧ r.score ≤ 100 ∧
      ∀ answers1 : Answers, (∀ k, 1 ≤ k → k ≤ 5 → lookup k answers1 = lookup k answers) →
        scoreResult answers1 = some r := by
  obtain ⟨i, rfl⟩ := optionValues_numeric 1 (by decide) income hincome
  obtain ⟨e, rfl⟩ := optionValues_numeric 2 (by decide) expenses hexpenses
  obtain ⟨d, rfl⟩ := optionValues_numeric 3 (by decide) debt hdebt
  obtain ⟨s, rfl⟩ := optionValues_numeric 4 (by decide) savings hsavings
  have hgoal : ∃ g, goalOrSave (some (.tag goal)) = some g := by
    by_cases hg : goal = "" <;> simp [goalOrSave, hg]
  obtain ⟨g, hg⟩ := hgoal
  have hres : ∃ r, scoreResult answers = some r ∧ r.score = score i e d s := by
    simp only [scoreResult, h1, h2, h3, h4, h5, numberOrZero, hg]
    exact ⟨_, rfl, rfl⟩
  obtain ⟨r, hr, hscore⟩ := hres
  refine ⟨r, hr, Nat.zero_le _, ?_, ?_⟩
  · rw [hscore]
    exact score_le_100 i e d s
  · intro answers1 hsame
    rw [← hr]
    simp only [scoreResult, hsame 1 (by decide) (by decide), hsame 2 (by decide) (by decide),
      hsame 3 (by decide) (by decide), hsame 4 (by decide) (by decide),
      hsame 5 (by decide) (by decide)]

/-- The bound of C6 on the answers income 1000, expenses 700, debt 0, savings 1000, goal
`save`. -/
theorem showResults_score_bounds_witness :
    ∃ r, scoreResult [(1, .num 1000), (2, .num 700), (3, .num 0), (4, .num 1000),
        (5, .tag "save")] = some r ∧ 0 ≤ r.score ∧ r.score ≤ 100 ∧
      ∀ answers1 : Answers,
        (∀ k, 1 ≤ k → k ≤ 5 → lookup k answers1 =
          lookup k [(1, .num 1000), (2, .num 700), (3, .num 0), (4, .num 1000),
            (5, .tag "save")]) →
        scoreResult answers1 = some r :=
  showResults_score_bounds
    [(1, .num 1000), (2, .num 700), (3, .num 0), (4, .num 1000), (5, .tag "save")]
    (.num 1000) (.num 700) (.num 0) (.num 1000) "save"
    (by decide) (by decide) (by decide) (by decide) (by decide) (by decide) (by decide)
    (by decide) (by decide)

/-! ### The score in doubles -/

theorem optionValues_income (q : ℚ) (h : AnswerValue.num q ∈ optionValues 1) :
    q = 300 ∨ q = 600 ∨ q = 1000 ∨ q = 1500 := by
  simpa [optionValues, questionAt, financialQuiz.questions] using h

theorem optionValues_expenses (q : ℚ) (h : AnswerValue.num q ∈ optionValues 2) :
    q = 200 ∨ q = 400 ∨ q = 700 ∨ q = 1000 := by
  simpa [optionValues, questionAt, financialQuiz.questions] using h

theorem optionValues_debt (q : ℚ) (h : AnswerValue.num q ∈ optionValues 3) :
    q = 0 ∨ q = 500 ∨ q = 2000 ∨ q = 5000 := by
  simpa [optionValues, questionAt, financialQuiz.questions] using h

theorem optionValues_savings (q : ℚ) (h : AnswerValue.num q ∈ optionValues 4) :
    q = 0 ∨ q = 100 ∨ q = 500 ∨ q = 1000 := by
  simpa [optionValues, questionAt, financialQuiz.questions] using h

/-- A double whose numerator is `n` times its denominator has the value `n`. -/
theorem Double.toRat_of_num (x : Double) (n : ℤ) (h : x.num = n * x.den) : x.toRat = n := by
  have hden : (x.den : ℚ) ≠ 0 := by
    simp [Double.den]
  rw [Double.toRat, h]
  push_cast
  field_simp

set_option maxRecDepth 100000 in
/-- The option values are doubles: storing one as a JavaScript number changes nothing. -/
theorem Double.ofRat_option_value (q : ℚ)
    (h : q = 0 ∨ q = 100 ∨ q = 200 ∨ q = 300 ∨ q = 400 ∨ q = 500 ∨ q = 600 ∨ q = 700 ∨
      q = 1000 ∨ q = 1500 ∨ q = 2000 ∨ q = 5000) :
    (Double.ofRat q).toRat = q := by
  rcases h with h | h | h | h | h | h | h | h | h | h | h | h <;> subst h
  · exact (Double.toRat_of_num _ 0 (by decide)).trans (by norm_num)
  · exact (Double.toRat_of_num _ 100 (by decide)).trans (by norm_num)
  · exact (Double.toRat_of_num _ 200 (by decide)).trans (by norm_num)
  · exact (Double.toRat_of_num _ 300 (by decide)).trans (by norm_num)
  · exact (Double.toRat_of_num _ 400 (by decide)).trans (by norm_num)
  · exact (Double.toRat_of_num _ 500 (by decide)).trans (by norm_num)
  · exact (Double.toRat_of_num _ 600 (by decide)).trans (by norm_num)
  · exact (Double.toRat_of_num _ 700 (by decide)).trans (by norm_num)
  · exact (Double.toRat_of_num _ 1000 (by decide)).trans (by norm_num)
  · exact (Double.toRat_of_num _ 1500 (by decide)).trans (by norm_num)
  · exact (Double.toRat_of_num _ 2000 (by decide)).trans (by norm_num)
  · exact (Double.toRat_of_num _ 5000 (by decide)).trans (by norm_num)

set_option maxRecDepth 100000 in
/-- On the answers the quiz can store, the score computed in doubles is the sum of the four
components computed exactly: each of the 256 combinations is evaluated. -/
theorem scoreDouble_option_values (income expenses debt savings : ℚ)
    (hincome : .num income ∈ optionValues 1) (hexpenses : .num expenses ∈ optionValues 2)
    (hdebt : .num debt ∈ optionValues 3) (hsavings : .num savings ∈ optionValues 4) :
    scoreDouble (.ofRat income) (.ofRat expenses) (.ofRat debt) (.ofRat savings) =
      specScore income expenses debt savings := by
  rcases optionValues_income income hincome with h | h | h | h <;>
  rcases optionValues_expenses expenses hexpenses with h2 | h2 | h2 | h2 <;>
  rcases optionValues_debt debt hdebt with h3 | h3 | h3 | h3 <;>
  rcases optionValues_savings savings hsavings with h4 | h4 | h4 | h4 <;>
  subst h h2 h3 h4 <;>
  (rw [show ∀ a b : ℕ, (a = b) = (b = a) from fun a b => propext eq_comm]
   norm_num [specScore]) <;>
  decide

set_option maxRecDepth 100000 in
/-- The doubles of the input on which rounding changes the score, and the code's run on them:
the difference 1801439850948198 is exact, the quotient rounds to
7205759403792793 / 2 ^ 55 (the double below the one written 0.2), and its product with 100 rounds to 20. -/
theorem scoreDouble_rounding :
    (Double.ofRat 9007199254740991).num = 9007199254740991 * (Double.ofRat 9007199254740991).den ∧
    (Double.ofRat 7205759403792793).num = 7205759403792793 * (Double.ofRat 7205759403792793).den ∧
    (Double.div (Double.sub (.ofRat 9007199254740991) (.ofRat 7205759403792793))
      (.ofRat 9007199254740991)).num * 2 ^ 55 =
      7205759403792793 * (Double.div (Double.sub (.ofRat 9007199254740991)
        (.ofRat 7205759403792793)) (.ofRat 9007199254740991)).den ∧
    (Double.mul (Double.div (Double.sub (.ofRat 9007199254740991) (.ofRat 7205759403792793))
      (.ofRat 9007199254740991)) (.ofRat 100)).num =
      20 * (Double.mul (Double.div (Double.sub (.ofRat 9007199254740991)
        (.ofRat 7205759403792793)) (.ofRat 9007199254740991)) (.ofRat 100)).den ∧
    scoreDouble (.ofRat 9007199254740991) (.ofRat 7205759403792793) (.ofRat 0) (.ofRat 0) =
      70 := by
  refine ⟨?_, ?_, ?_, ?_, ?_⟩ <;> decide

/-- C7, as far as it holds: for answers that are option values of the quiz (the only numbers
`processQuizResponse` stores), the score `showResults` computes in doubles is the sum of the
four components of the specification computed exactly (savings rate, emergency fund, debt,
income against expenses), the stored numbers are those values, and the exact model `score`
gives the same number; and the answers income 1000, expenses 700, debt 0, savings 1000, goal
`save` score 25 + 20 + 25 + 20 = 90. -/
theorem score_is_sum_of_components :
    (∀ income expenses debt savings : ℚ,
      .num income ∈ optionValues 1 → .num expenses ∈ optionValues 2 →
      .num debt ∈ optionValues 3 → .num savings ∈ optionValues 4 →
      scoreDouble (.ofRat income) (.ofRat expenses) (.ofRat debt) (.ofRat savings) =
          specScore income expenses debt savings ∧
        score income expenses debt savings = specScore income expenses debt savings ∧
        (Double.ofRat income).toRat = income ∧ (Double.ofRat expenses).toRat = expenses ∧
        (Double.ofRat debt).toRat = debt ∧ (Double.ofRat savings).toRat = savings) ∧
    scoreDouble (.ofRat 1000) (.ofRat 700) (.ofRat 0) (.ofRat 1000) = 25 + 20 + 25 + 20 ∧
    (scoreResult [(1, .num 1000), (2, .num 700), (3, .num 0), (4, .num 1000),
        (5, .tag "save")]).map (fun r => r.score) = some (25 + 20 + 25 + 20) ∧
    25 + 20 + 25 + 20 = 90 := by
  have hexample : specScore 1000 700 0 1000 = 25 + 20 + 25 + 20 := by
    norm_num [specScore]
  refine ⟨?_, ?_, ?_, rfl⟩
  · intro income expenses debt savings hincome hexpenses hdebt hsavings
    refine ⟨scoreDouble_option_values income expenses debt savings hincome hexpenses hdebt
      hsavings, score_eq_components income expenses debt savings, ?_, ?_, ?_, ?_⟩
    · apply Double.ofRat_option_value
      rcases optionValues_income income hincome with h | h | h | h <;> simp [h]
    · apply Double.ofRat_option_value
      rcases optionValues_expenses expenses hexpenses with h | h | h | h <;> simp [h]
    · apply Double.ofRat_option_value
      rcases optionValues_debt debt hdebt with h | h | h | h <;> simp [h]
    · apply Double.ofRat_option_value
      rcases optionValues_savings savings hsavings with h | h | h | h <;> simp [h]
  · rw [← hexample]
    exact scoreDouble_option_values 1000 700 0 1000 (by decide) (by decide) (by decide)
      (by decide)
  · simp [scoreResult, lookup, numberOrZero, goalOrSave, score, savingsRate,
      emergencyFundTarget, debtRatio]
    norm_num

/-- The general part of C7 on the answers income 300, expenses 200, debt 500, savings 100:
the score in doubles is the sum 25 + 10 + 0 + 20 = 55 of the components. -/
theorem score_is_sum_of_components_witness :
    AnswerValue.num 300 ∈ optionValues 1 ∧ AnswerValue.num 200 ∈ optionValues 2 ∧
    AnswerValue.num 500 ∈ optionValues 3 ∧ AnswerValue.num 100 ∈ optionValues 4 ∧
    scoreDouble (.ofRat 300) (.ofRat 200) (.ofRat 500) (.ofRat 100) =
      specScore 300 200 500 100 ∧
    specScore 300 200 500 100 = 25 + 10 + 0 + 20 :=
  ⟨by decide, by decide, by decide, by decide,
    (score_is_sum_of_components.1 300 200 500 100 (by decide) (by decide) (by decide)
      (by decide)).1,
    by norm_num [specScore]⟩

/-- C7 does not hold for all numeric answers: income 9007199254740991 and expenses
7205759403792793 are doubles, and with debt 0 and savings 0 the exact savings rate
(income - expenses) / income * 100 is below 20, so that the four components add up to
15 + 0 + 25 + 20 = 60; the rate `showResults` computes in doubles is 20, and its score is
25 + 0 + 25 + 20 = 70. -/
theorem score_rounds_onto_threshold :
    (Double.ofRat 9007199254740991).toRat = 9007199254740991 ∧
    (Double.ofRat 7205759403792793).toRat = 7205759403792793 ∧
    ((9007199254740991 - 7205759403792793 : ℚ) / 9007199254740991 * 100 < 20) ∧
    (Double.mul (Double.div (Double.sub (.ofRat 9007199254740991) (.ofRat 7205759403792793))
      (.ofRat 9007199254740991)) (.ofRat 100)).toRat = 20 ∧
    scoreDouble (.ofRat 9007199254740991) (.ofRat 7205759403792793) (.ofRat 0) (.ofRat 0) =
      70 ∧
    specScore 9007199254740991 7205759403792793 0 0 = 60 ∧
    score 9007199254740991 7205759403792793 0 0 = 60 := by
  have hspec : specScore 9007199254740991 7205759403792793 0 0 = 60 := by
    norm_num [specScore]
  obtain ⟨hincome, hexpenses, -, hrate, hscore⟩ := scoreDouble_rounding
  refine ⟨?_, ?_, by norm_num, ?_, hscore, hspec, ?_⟩
  · exact (Double.toRat_of_num _ 9007199254740991 hincome).trans (by norm_num)
  · exact (Double.toRat_of_num _ 7205759403792793 hexpenses).trans (by norm_num)
  · exact (Double.toRat_of_num _ 20 hrate).trans (by norm_num)
  · rw [score_eq_components, hspec]

/-! ## The chunk sender -/

theorem sendChunks_all_succeed {ε σ : Type} (sendMessage : SendMessage JSString ε σ)
    (chatId : Nat) (chunks : List JSString) (w : σ)
    (h : allSucceed sendMessage chatId chunks w = true) :
    (sendChunks sendMessage chatId chunks w).calls = chunks.map (fun c => (chatId, c)) ∧
      (sendChunks sendMessage chatId chunks w).result = .ok () := by
  induction chunks generalizing w with
  | nil => exact ⟨rfl, rfl⟩
  | cons chunk later ih =>
    simp only [allSucceed, Bool.and_eq_true, Option.isNone_iff_eq_none] at h
    obtain ⟨hfirst, hlater⟩ := h
    cases hs : sendMessage w chatId chunk with
    | mk w1 outcome =>
      rw [hs] at hfirst hlater
      simp only at hfirst hlater
      subst hfirst
      simp only [sendChunks, hs, List.map_cons]
      exact ⟨by rw [(ih w1 hlater).1], (ih w1 hlater).2⟩

theorem sendChunks_first_failure {ε σ : Type} (sendMessage : SendMessage JSString ε σ)
    (chatId : Nat) (sent : List JSString) (chunk : JSString) (later : List JSString) (w : σ)
    (e : ε) (hsent : allSucceed sendMessage chatId sent w = true)
    (hfail : (sendMessage (worldAfter sendMessage chatId sent w) chatId chunk).2 = some e) :
    (sendChunks sendMessage chatId (sent ++ chunk :: later) w).calls
        = (sent ++ [chunk]).map (fun c => (chatId, c)) ∧
      (sendChunks sendMessage chatId (sent ++ chunk :: later) w).result = .error e := by
  induction sent generalizing w with
  | nil =>
    cases hs : sendMessage w chatId chunk with
    | mk w1 outcome =>
      simp only [worldAfter, List.foldl_nil, hs] at hfail
      subst hfail
      simp [sendChunks, hs]
  | cons first rest ih =>
    simp only [allSucceed, Bool.and_eq_true, Option.isNone_iff_eq_none] at hsent
    obtain ⟨hfirst, hrest⟩ := hsent
    cases hs : sendMessage w chatId first with
    | mk w1 outcome =>
      rw [hs] at hfirst hrest
      simp only at hfirst hrest
      subst hfirst
      have hfail1 : (sendMessage (worldAfter sendMessage chatId rest w1) chatId chunk).2
          = some e := by
        simpa [worldAfter, hs] using hfail
      have hcons : sendChunks sendMessage chatId (first :: rest ++ chunk :: later) w
          = ⟨(chatId, first) :: (sendChunks sendMessage chatId (rest ++ chunk :: later) w1).calls,
              (sendChunks sendMessage chatId (rest ++ chunk :: later) w1).world,
              (sendChunks sendMessage chatId (rest ++ chunk :: later) w1).result⟩ := by
        rw [List.cons_append, sendChunks, hs]
      rw [hcons]
      exact ⟨by simp [(ih w1 hrest hfail1).1], (ih w1 hrest hfail1).2⟩

theorem sendChunks_calls_prefix {ε σ : Type} (sendMessage : SendMessage JSString ε σ)
    (chatId : Nat) (chunks : List JSString) (w : σ) :
    (sendChunks sendMessage chatId chunks w).calls <+: chunks.map (fun c => (chatId, c)) := by
  induction chunks generalizing w with
  | nil => simp [sendChunks]
  | cons chunk later ih =>
    cases hs : sendMessage w chatId chunk with
    | mk w1 outcome =>
      cases outcome with
      | none =>
        simp only [sendChunks, hs, List.map_cons]
        exact (List.prefix_cons_inj _).mpr (ih w1)
      | some e =>
        simp only [sendChunks, hs, List.map_cons]
        exact (List.prefix_cons_inj _).mpr (List.nil_prefix)

/-- C10: `sendLongMessage` calls `sendMessage` on the chunks of `splitMessage(message, 4096)`
in list order (the calls made are always an initial part of the chunk list); if the sends
before chunk `chunk` succeed and the send of `chunk` fails with `e`, the calls made are exactly
the chunks up to and including `chunk`, none after it, and the call fails with `e`; if every
send succeeds, the calls made are exactly the chunks, each once, and the call succeeds. -/
theorem sendLongMessage_sends_in_order {ε σ : Type} (sendMessage : SendMessage JSString ε σ)
    (chatId : Nat) (message : JSString) (w : σ) :
    let chunks := splitMessage message 4096
    let r := sendLongMessage sendMessage chatId message w
    r.calls <+: chunks.map (fun c => (chatId, c)) ∧
    (∀ sent chunk later e, chunks = sent ++ chunk :: later →
      allSucceed sendMessage chatId sent w = true →
      (sendMessage (worldAfter sendMessage chatId sent w) chatId chunk).2 = some e →
      r.calls = (sent ++ [chunk]).map (fun c => (chatId, c)) ∧ r.result = .error e) ∧
    (allSucceed sendMessage chatId chunks w = true →
      r.calls = chunks.map (fun c => (chatId, c)) ∧ r.result = .ok ()) := by
  intro chunks r
  have hr : r = sendChunks sendMessage chatId chunks w := rfl
  refine ⟨?_, ?_, ?_⟩
  · rw [hr]
    exact sendChunks_calls_prefix sendMessage chatId chunks w
  · intro sent chunk later e hchunks hsent hfail
    rw [hr, hchunks]
    exact sendChunks_first_failure sendMessage chatId sent chunk later w e hsent hfail
  · intro hall
    rw [hr]
    exact sendChunks_all_succeed sendMessage chatId chunks w hall

/-! ## The quiz: one response -/

theorem questionAt_some (i : Nat) (question : Question) (h : questionAt i = some question) :
    1 ≤ i ∧ i ≤ financialQuiz.questions.length ∧ question.options.length = 4 := by
  unfold questionAt at h
  split at h
  · exact absurd h (by simp)
  · next h0 =>
    have hlt : i - 1 < financialQuiz.questions.length := by
      by_contra hge
      rw [List.getElem?_eq_none (Nat.le_of_not_lt hge)] at h
      exact absurd h (by simp)
    have h5 : financialQuiz.questions.length = 5 := rfl
    have hi : 1 ≤ i ∧ i ≤ 5 := by omega
    refine ⟨hi.1, by omega, ?_⟩
    obtain ⟨h1, h5⟩ := hi
    interval_cases i <;> simp [financialQuiz.questions] at h <;> subst h <;> rfl

theorem questionAt_exists (i : Nat) (h1 : 1 ≤ i) (h5 : i ≤ financialQuiz.questions.length) :
    ∃ question, questionAt i = some question := by
  have hlen : financialQuiz.questions.length = 5 := rfl
  rw [hlen] at h5
  interval_cases i <;> exact ⟨_, rfl⟩

theorem validAnswerIndex_eq_some (text : JSString) (length k : Nat) :
    validAnswerIndex text length = some k ↔
      ∃ n : Int, parseInt text = some n ∧ 1 ≤ n ∧ n ≤ length ∧ k = (n - 1).toNat := by
  unfold validAnswerIndex
  cases parseInt text with
  | none => simp
  | some n =>
    by_cases hn : n - 1 ≥ 0 ∧ n - 1 < (length : Int)
    · simp only [hn, and_self, if_true, Option.some.injEq]
      constructor
      · intro hk
        exact ⟨n, rfl, by omega, by omega, hk.symm⟩
      · rintro ⟨m, hm, -, -, hk⟩
        cases hm
        exact hk.symm
    · simp only [hn, if_false]
      constructor
      · intro hk
        exact absurd hk (by simp)
      · rintro ⟨m, hm, h1, h2, -⟩
        cases hm
        exact absurd ⟨by omega, by omega⟩ hn

theorem validAnswerIndex_eq_none (text : JSString) (length : Nat)
    (h : ∀ n : Int, parseInt text = some n → n < 1 ∨ (length : Int) < n) :
    validAnswerIndex text length = none := by
  cases hv : validAnswerIndex text length with
  | none => rfl
  | some k =>
    obtain ⟨n, hn, h1, h2, -⟩ := (validAnswerIndex_eq_some text length k).mp hv
    rcases h n hn with h3 | h3 <;> omega

theorem validAnswerIndex_lt (text : JSString) (length k : Nat)
    (h : validAnswerIndex text length = some k) : k < length := by
  obtain ⟨n, -, h1, h2, hk⟩ := (validAnswerIndex_eq_some text length k).mp h
  omega

theorem askQuestion_calls {ε σ : Type} (sendMessage : SendMessage QuizMessage ε σ) (msg : Msg)
    (k : Nat) (w : σ) (next : Question) (hnext : questionAt k = some next) :
    (askQuestion sendMessage msg k w).calls = [(msg.chatId, .question k next)] := by
  simp only [askQuestion, hnext]
  split <;> rfl

theorem askQuestion_result {ε σ : Type} (sendMessage : SendMessage QuizMessage ε σ) (msg : Msg)
    (k : Nat) (w : σ) (next : Question) (hnext : questionAt k = some next) :
    (askQuestion sendMessage msg k w).result =
      match (sendMessage w msg.chatId (.question k next)).2 with
      | none => .ok ()
      | some e => .error (.send e) := by
  simp only [askQuestion, hnext]
  split <;> simp_all

theorem showResults_calls {ε σ : Type} (sendMessage : SendMessage QuizMessage ε σ) (msg : Msg)
    (answers : Answers) (w : σ) :
    (showResults sendMessage msg answers w).calls = [(msg.chatId, .results answers)] := by
  simp only [showResults]
  split <;> rfl

theorem showResults_result {ε σ : Type} (sendMessage : SendMessage QuizMessage ε σ) (msg : Msg)
    (answers : Answers) (w : σ) :
    (showResults sendMessage msg answers w).result =
      match (sendMessage w msg.chatId (.results answers)).2 with
      | none => .ok ()
      | some e => .error (.send e) := by
  simp only [showResults]
  split <;> simp_all

/-- C8: after `processQuizResponse` on an active session with `currentQuestion = i`, whatever
the message and whether or not the sends succeed, the user's session is either removed or has
`currentQuestion` equal to `i` or to `i + 1`. -/
theorem processQuizResponse_index_step {ε σ : Type} (toUpperCase : JSString → JSString)
    (sendMessage : SendMessage QuizMessage ε σ) (quizState : QuizState) (msg : Msg) (w : σ)
    (state : QuizSession) (hstate : lookup msg.fromId quizState = some state) :
    let r := processQuizResponse toUpperCase sendMessage quizState msg w
    lookup msg.fromId r.quizState = none ∨
      ∃ state1, lookup msg.fromId r.quizState = some state1 ∧
        (state1.currentQuestion = state.currentQuestion ∨
          state1.currentQuestion = state.currentQuestion + 1) := by
  intro r
  rcases processQuizResponse_quizState toUpperCase sendMessage quizState msg w state hstate
    with h | ⟨value, h | h⟩
  · exact Or.inr ⟨state, by rw [show r.quizState = quizState from h, hstate], Or.inl rfl⟩
  · refine Or.inr ⟨state.answered value, ?_, Or.inr rfl⟩
    rw [show r.quizState = _ from h, lookup_assign_self]
  · refine Or.inl ?_
    rw [show r.quizState = _ from h, lookup_remove_self]

/-- The step of C8 for user 7 at question 3 answering `2`. -/
theorem processQuizResponse_index_step_witness :
    lookup 7 (oneSession 3 [(1, .num 600), (2, .num 400)])
        = some ⟨3, [(1, .num 600), (2, .num 400)], 0⟩ ∧
      (lookup 7 (processQuizResponse asciiUpper (delivers QuizMessage)
          (oneSession 3 [(1, .num 600), (2, .num 400)]) (textFrom7 "2") ()).quizState = none ∨
        ∃ state1, lookup 7 (processQuizResponse asciiUpper (delivers QuizMessage)
            (oneSession 3 [(1, .num 600), (2, .num 400)]) (textFrom7 "2") ()).quizState
              = some state1 ∧
          (state1.currentQuestion = 3 ∨ state1.currentQuestion = 3 + 1)) :=
  ⟨by decide,
    processQuizResponse_index_step asciiUpper (delivers QuizMessage)
      (oneSession 3 [(1, .num 600), (2, .num 400)]) (textFrom7 "2") ()
      ⟨3, [(1, .num 600), (2, .num 400)], 0⟩ (by decide)⟩

theorem numeral_small (n : Nat) (h1 : 1 ≤ n) (h4 : n ≤ 4) :
    numeral n ≠ [] ∧ numeral n ≠ js "READY" ∧
      validAnswerIndex (numeral n) 4 = some (n - 1) := by
  interval_cases n <;> decide

/-- C3, amended: a message whose text is the decimal numeral of an option number `n` of the
current question `i` has the value of option `n` stored under `q{i}`, every other answer as
before, and the index moved to `i + 1`.  When `i` is not the last question the session is
kept so updated and question `i + 1` is sent; the call returns true if that send succeeds and
ends with the send's error if it fails.  When `i` is the last question the report computed
from that answer map is sent; if that send succeeds the call returns true and the session is
removed, and if it fails the call ends with the send's error and the session stays, so
updated. -/
theorem processQuizResponse_valid_answer {ε σ : Type} (toUpperCase : JSString → JSString)
    (sendMessage : SendMessage QuizMessage ε σ) (quizState : QuizState) (msg : Msg) (w : σ)
    (state : QuizSession) (question : Question) (option : QuizOption) (n : Nat)
    (hstate : lookup msg.fromId quizState = some state)
    (hquestion : questionAt state.currentQuestion = some question)
    (hn : 1 ≤ n ∧ n ≤ question.options.length)
    (hoption : question.options[n - 1]? = some option)
    (htext : msg.text = some (numeral n))
    (hupper : toUpperCase (numeral n) = numeral n) :
    let r := processQuizResponse toUpperCase sendMessage quizState msg w
    let answers1 := assign state.currentQuestion option.value state.answers
    let state1 : QuizSession :=
      { state with answers := answers1, currentQuestion := state.currentQuestion + 1 }
    lookup state.currentQuestion answers1 = some option.value ∧
    (∀ j, j ≠ state.currentQuestion → lookup j answers1 = lookup j state.answers) ∧
    (if state.currentQuestion < financialQuiz.questions.length then
      lookup msg.fromId r.quizState = some state1 ∧
      ∃ next, questionAt (state.currentQuestion + 1) = some next ∧
        r.calls = [(msg.chatId, .question (state.currentQuestion + 1) next)] ∧
        ((sendMessage w msg.chatId (.question (state.currentQuestion + 1) next)).2 = none →
          r.result = .ok true) ∧
        (∀ e, (sendMessage w msg.chatId (.question (state.currentQuestion + 1) next)).2
            = some e → r.result = .error (.send e))
    else
      r.calls = [(msg.chatId, .results answers1)] ∧
      ((sendMessage w msg.chatId (.results answers1)).2 = none →
        r.result = .ok true ∧ lookup msg.fromId r.quizState = none) ∧
      (∀ e, (sendMessage w msg.chatId (.results answers1)).2 = some e →
        r.result = .error (.send e) ∧ lookup msg.fromId r.quizState = some state1)) := by
  intro r answers1 state1
  obtain ⟨hi1, hi5, hlen⟩ := questionAt_some _ _ hquestion
  rw [hlen] at hn
  obtain ⟨hnil, hready, hidx⟩ := numeral_small n hn.1 hn.2
  have htext1 : upperText toUpperCase msg = numeral n := by
    simp [upperText, htext, hnil, hupper]
  have hnotready : ¬(numeral n = js "READY" ∧ state.currentQuestion = 1) :=
    fun h => hready h.1
  have hr : r = processQuizResponse toUpperCase sendMessage quizState msg w := rfl
  simp only [processQuizResponse, hstate, htext1, hnotready, if_false, hquestion, hlen, hidx,
    hoption] at hr
  refine ⟨lookup_assign_self _ _ _, fun j hj => lookup_assign_other _ _ _ _ hj, ?_⟩
  by_cases hlast : state.currentQuestion + 1 ≤ financialQuiz.questions.length
  · obtain ⟨next, hnext⟩ := questionAt_exists (state.currentQuestion + 1) (by omega) hlast
    simp only [hlast, if_true, askQuestion_calls sendMessage msg _ w next hnext,
      askQuestion_result sendMessage msg _ w next hnext] at hr
    rw [if_pos (by omega)]
    cases hs : (sendMessage w msg.chatId (.question (state.currentQuestion + 1) next)).2 with
    | none =>
      rw [hs] at hr
      rw [hr]
      refine ⟨lookup_assign_self _ _ _, next, hnext, rfl, fun _ => rfl, fun e he => ?_⟩
      rw [hs] at he
      exact absurd he (by simp)
    | some e =>
      rw [hs] at hr
      rw [hr]
      refine ⟨lookup_assign_self _ _ _, next, hnext, rfl, fun he => ?_, fun e1 he1 => ?_⟩
      · rw [hs] at he
        exact absurd he (by simp)
      · rw [hs] at he1
        cases he1
        rfl
  · simp only [hlast, if_false, showResults_calls, showResults_result] at hr
    rw [if_neg (by omega)]
    cases hs : (sendMessage w msg.chatId (.results answers1)).2 with
    | none =>
      rw [show (sendMessage w msg.chatId
        (.results (assign state.currentQuestion option.value state.answers))).2 = none
        from hs] at hr
      rw [hr]
      exact ⟨rfl, fun _ => ⟨rfl, lookup_remove_self _ _⟩, fun e he => absurd he (by simp)⟩
    | some e =>
      rw [show (sendMessage w msg.chatId
        (.results (assign state.currentQuestion option.value state.answers))).2 = some e
        from hs] at hr
      rw [hr]
      refine ⟨rfl, fun he => absurd he (by simp), ?_⟩
      intro e1 he1
      cases he1
      exact ⟨rfl, lookup_assign_self _ _ _⟩

/-- The transition of C3 for user 7 at question 1 answering `2`, on a transport that
delivers and on one that rejects the send. -/
theorem processQuizResponse_valid_answer_witness :
    lookup 7 (oneSession 1 []) = some ⟨1, [], 0⟩ ∧
    (textFrom7 "2").text = some (numeral 2) ∧
    asciiUpper (numeral 2) = numeral 2 ∧
    (let r := processQuizResponse asciiUpper (delivers QuizMessage) (oneSession 1 [])
        (textFrom7 "2") ()
     let answers1 := assign 1 (.num 600) []
     let state1 : QuizSession := ⟨1 + 1, answers1, 0⟩
     lookup 1 answers1 = some (.num 600) ∧
     (∀ j, j ≠ 1 → lookup j answers1 = lookup j []) ∧
     (if 1 < financialQuiz.questions.length then
       lookup 7 r.quizState = some state1 ∧
       ∃ next, questionAt (1 + 1) = some next ∧
         r.calls = [(7, .question (1 + 1) next)] ∧
         ((delivers QuizMessage () 7 (.question (1 + 1) next)).2 = none →
           r.result = .ok true) ∧
         (∀ e, (delivers QuizMessage () 7 (.question (1 + 1) next)).2 = some e →
           r.result = .error (.send e))
     else
       r.calls = [(7, .results answers1)] ∧
       ((delivers QuizMessage () 7 (.results answers1)).2 = none →
         r.result = .ok true ∧ lookup 7 r.quizState = none) ∧
       (∀ e, (delivers QuizMessage () 7 (.results answers1)).2 = some e →
         r.result = .error (.send e) ∧ lookup 7 r.quizState = some state1))) ∧
    (let r := processQuizResponse asciiUpper (blocked QuizMessage) (oneSession 1 [])
        (textFrom7 "2") ()
     let answers1 := assign 1 (.num 600) []
     let state1 : QuizSession := ⟨1 + 1, answers1, 0⟩
     lookup 1 answers1 = some (.num 600) ∧
     (∀ j, j ≠ 1 → lookup j answers1 = lookup j []) ∧
     (if 1 < financialQuiz.questions.length then
       lookup 7 r.quizState = some state1 ∧
       ∃ next, questionAt (1 + 1) = some next ∧
         r.calls = [(7, .question (1 + 1) next)] ∧
         ((blocked QuizMessage () 7 (.question (1 + 1) next)).2 = none →
           r.result = .ok true) ∧
         (∀ e, (blocked QuizMessage () 7 (.question (1 + 1) next)).2 = some e →
           r.result = .error (.send e))
     else
       r.calls = [(7, .results answers1)] ∧
       ((blocked QuizMessage () 7 (.results answers1)).2 = none →
         r.result = .ok true ∧ lookup 7 r.quizState = none) ∧
       (∀ e, (blocked QuizMessage () 7 (.results answers1)).2 = some e →
         r.result = .error (.send e) ∧ lookup 7 r.quizState = some state1))) :=
  ⟨by decide, by decide, by decide,
    processQuizResponse_valid_answer asciiUpper (delivers QuizMessage) (oneSession 1 [])
      (textFrom7 "2") () ⟨1, [], 0⟩ _ ⟨.num 600, "$300-$600"⟩ 2 (by decide)
      rfl (by decide) (by decide) (by decide) (by decide),
    processQuizResponse_valid_answer asciiUpper (blocked QuizMessage) (oneSession 1 [])
      (textFrom7 "2") () ⟨1, [], 0⟩ _ ⟨.num 600, "$300-$600"⟩ 2 (by decide)
      rfl (by decide) (by decide) (by decide) (by decide)⟩

/-- C3 as stated fails when the send fails: user 7 is at question 1 and answers `2`, the
numeral of an option, on a transport that rejects the send.  The answer is recorded and the
index advanced, but the call ends with the send's error instead of returning true. -/
theorem processQuizResponse_valid_answer_send_fails :
    (textFrom7 "2").text = some (numeral 2) ∧
    lookup 7 (oneSession 1 []) = some ⟨1, [], 0⟩ ∧
    (processQuizResponse asciiUpper (blocked QuizMessage) (oneSession 1 [])
        (textFrom7 "2") ()).quizState = oneSession 2 [(1, .num 600)] ∧
    (processQuizResponse asciiUpper (blocked QuizMessage) (oneSession 1 [])
        (textFrom7 "2") ()).result = .error (.send "blocked") ∧
    (processQuizResponse asciiUpper (blocked QuizMessage) (oneSession 1 [])
        (textFrom7 "2") ()).result ≠ .ok true := by
  decide

/-- C4 as stated fails on `2abc` (and on `1.5`): neither text is the numeral of an option
number, yet `parseInt` reads them as 2 and 1, so the answer is recorded, the index advances
and the next question is sent instead of the re-prompt. -/
theorem processQuizResponse_accepts_2abc :
    js "2abc" ∉ [numeral 1, numeral 2, numeral 3, numeral 4] ∧
    js "1.5" ∉ [numeral 1, numeral 2, numeral 3, numeral 4] ∧
    (processQuizResponse asciiUpper (delivers QuizMessage) (oneSession 1 [])
        (textFrom7 "2abc") ()).quizState = oneSession 2 [(1, .num 600)] ∧
    (processQuizResponse asciiUpper (delivers QuizMessage) (oneSession 1 [])
        (textFrom7 "2abc") ()).quizState ≠ oneSession 1 [] ∧
    (processQuizResponse asciiUpper (delivers QuizMessage) (oneSession 1 [])
        (textFrom7 "2abc") ()).calls ≠ [(7, .invalid 4)] ∧
    (processQuizResponse asciiUpper (delivers QuizMessage) (oneSession 1 [])
        (textFrom7 "1.5") ()).quizState = oneSession 2 [(1, .num 300)] := by
  decide

/-- C4, amended: assuming sends succeed, when `parseInt` of the upper-cased text is `NaN` or
an integer outside `1..options.length` of the current question, `processQuizResponse` leaves
the session map unchanged, returns true and sends exactly one message: the re-prompt naming
the range `1-options.length`, or, for the text `READY` at question 1, question 1 again. -/
theorem processQuizResponse_invalid_answer {ε σ : Type} (toUpperCase : JSString → JSString)
    (sendMessage : SendMessage QuizMessage ε σ) (quizState : QuizState) (msg : Msg) (w : σ)
    (state : QuizSession) (question : Question)
    (hsend : ∀ w1 chatId text, (sendMessage w1 chatId text).2 = none)
    (hstate : lookup msg.fromId quizState = some state)
    (hquestion : questionAt state.currentQuestion = some question)
    (hinvalid : ∀ n : Int, parseInt (upperText toUpperCase msg) = some n →
      n < 1 ∨ (question.options.length : Int) < n) :
    let r := processQuizResponse toUpperCase sendMessage quizState msg w
    r.quizState = quizState ∧
    lookup msg.fromId r.quizState = some state ∧
    r.result = .ok true ∧
    r.calls = [(msg.chatId,
      if upperText toUpperCase msg = js "READY" ∧ state.currentQuestion = 1
      then .question 1 question else .invalid question.options.length)] := by
  intro r
  have hidx := validAnswerIndex_eq_none _ _ hinvalid
  have hr : r = processQuizResponse toUpperCase sendMessage quizState msg w := rfl
  by_cases hready : upperText toUpperCase msg = js "READY" ∧ state.currentQuestion = 1
  · have hq1 : questionAt 1 = some question := by rw [← hready.2]; exact hquestion
    simp only [processQuizResponse, hstate, hready, and_self, if_true,
      askQuestion_calls sendMessage msg 1 w question hq1,
      askQuestion_result sendMessage msg 1 w question hq1, hsend] at hr
    rw [hr]
    exact ⟨rfl, hstate, rfl, by simp [hready]⟩
  · simp only [processQuizResponse, hstate, hready, if_false, hquestion, hidx] at hr
    cases hs : sendMessage w msg.chatId (.invalid question.options.length) with
    | mk w1 outcome =>
      have hnone := hsend w msg.chatId (.invalid question.options.length)
      rw [hs] at hnone hr
      simp only at hnone
      subst hnone
      rw [hr]
      exact ⟨rfl, hstate, rfl, by simp [hready]⟩

/-- The self-loop of C4 on the example of the specification: the answer `5` to a question
with 4 options. -/
theorem processQuizResponse_invalid_answer_witness :
    (∀ w1 chatId text, (delivers QuizMessage w1 chatId text).2 = none) ∧
    lookup 7 (oneSession 1 []) = some ⟨1, [], 0⟩ ∧
    (∀ n : Int, parseInt (upperText asciiUpper (textFrom7 "5")) = some n →
      n < 1 ∨ ((4 : Nat) : Int) < n) ∧
    (let r := processQuizResponse asciiUpper (delivers QuizMessage) (oneSession 1 [])
        (textFrom7 "5") ()
     r.quizState = oneSession 1 [] ∧
     lookup 7 r.quizState = some ⟨1, [], 0⟩ ∧
     r.result = .ok true ∧
     r.calls = [(7, .invalid 4)]) :=
  ⟨fun _ _ _ => rfl, by decide,
    fun n hn => by
      have h5 : parseInt (upperText asciiUpper (textFrom7 "5")) = some 5 := by decide
      rw [h5] at hn
      cases hn
      decide,
    processQuizResponse_invalid_answer asciiUpper (delivers QuizMessage) (oneSession 1 [])
      (textFrom7 "5") () ⟨1, [], 0⟩ _ (fun _ _ _ => rfl) (by decide) rfl
      (fun n hn => by
        have h5 : parseInt (upperText asciiUpper (textFrom7 "5")) = some 5 := by decide
        rw [h5] at hn
        cases hn
        decide)⟩

theorem processQuizResponse_final_answer {ε σ : Type} (toUpperCase : JSString → JSString)
    (sendMessage : SendMessage QuizMessage ε σ) (quizState : QuizState) (msg : Msg) (w : σ)
    (state : QuizSession) (question : Question) (option : QuizOption) (k : Nat)
    (hstate : lookup msg.fromId quizState = some state)
    (hfinal : state.currentQuestion = financialQuiz.questions.length)
    (hquestion : questionAt state.currentQuestion = some question)
    (hidx : validAnswerIndex (upperText toUpperCase msg) question.options.length = some k)
    (hoption : question.options[k]? = some option) :
    let r := processQuizResponse toUpperCase sendMessage quizState msg w
    let answers1 := assign state.currentQuestion option.value state.answers
    r.calls = [(msg.chatId, .results answers1)] ∧
    (∀ e, (sendMessage w msg.chatId (.results answers1)).2 = some e →
      r.quizState = assign msg.fromId (state.answered option.value) quizState ∧
      r.result = .error (.send e)) ∧
    ((sendMessage w msg.chatId (.results answers1)).2 = none →
      r.quizState = remove msg.fromId (assign msg.fromId (state.answered option.value) quizState) ∧
      r.result = .ok true) := by
  intro r answers1
  have h5 : financialQuiz.questions.length = 5 := rfl
  have hnotready : ¬(upperText toUpperCase msg = js "READY" ∧ state.currentQuestion = 1) := by
    rintro ⟨-, h1⟩
    omega
  have hlast : ¬(state.currentQuestion + 1 ≤ financialQuiz.questions.length) := by omega
  have hr : r = processQuizResponse toUpperCase sendMessage quizState msg w := rfl
  simp only [processQuizResponse, hstate, hnotready, if_false, hquestion, hidx, hoption, hlast,
    showResults_calls, showResults_result] at hr
  cases hs : (sendMessage w msg.chatId (.results answers1)).2 with
  | none =>
    rw [show (sendMessage w msg.chatId
      (.results (assign state.currentQuestion option.value state.answers))).2 = none from hs] at hr
    rw [hr]
    exact ⟨rfl, fun e he => absurd he (by simp), fun _ => ⟨rfl, rfl⟩⟩
  | some e =>
    rw [show (sendMessage w msg.chatId
      (.results (assign state.currentQuestion option.value state.answers))).2 = some e from hs] at hr
    rw [hr]
    refine ⟨rfl, ?_, fun he => absurd he (by simp)⟩
    intro e1 he1
    cases he1
    exact ⟨rfl, rfl⟩

/-- C9 as stated fails on `3abc` at the final question: the text is not an option number, yet
`parseInt` reads it as 3, the report is sent and the session is removed. -/
theorem processQuizResponse_completes_on_3abc :
    js "3abc" ∉ [numeral 1, numeral 2, numeral 3, numeral 4] ∧
    lookup 7 (oneSession 5 [(1, .num 1000), (2, .num 700), (3, .num 0), (4, .num 1000)])
      = some ⟨5, [(1, .num 1000), (2, .num 700), (3, .num 0), (4, .num 1000)], 0⟩ ∧
    lookup 7 (processQuizResponse asciiUpper (delivers QuizMessage)
      (oneSession 5 [(1, .num 1000), (2, .num 700), (3, .num 0), (4, .num 1000)])
      (textFrom7 "3abc") ()).quizState = none ∧
    (processQuizResponse asciiUpper (delivers QuizMessage)
      (oneSession 5 [(1, .num 1000), (2, .num 700), (3, .num 0), (4, .num 1000)])
      (textFrom7 "3abc") ()).calls
      = [(7, .results [(1, .num 1000), (2, .num 700), (3, .num 0), (4, .num 1000),
          (5, .tag "save")])] := by
  decide

/-- C9, amended: assuming sends succeed, `processQuizResponse` removes the user's session if
and only if `currentQuestion` equals the number of questions and `parseInt` of the upper-cased
text is an in-range option number of that question.  In that case, whether or not sends
succeed, the one message sent is the report computed from the answer map with the final
answer stored; and the report is sent before the removal: if that send fails the session is
still there, with the final answer stored. -/
theorem processQuizResponse_removes_session {ε σ : Type} (toUpperCase : JSString → JSString)
    (sendMessage : SendMessage QuizMessage ε σ) (quizState : QuizState) (msg : Msg) (w : σ)
    (state : QuizSession) (hstate : lookup msg.fromId quizState = some state) :
    let r := processQuizResponse toUpperCase sendMessage quizState msg w
    let text := upperText toUpperCase msg
    ((∀ w1 chatId body, (sendMessage w1 chatId body).2 = none) →
      (lookup msg.fromId r.quizState = none ↔
        state.currentQuestion = financialQuiz.questions.length ∧
        ∃ question n, questionAt state.currentQuestion = some question ∧
          parseInt text = some n ∧ 1 ≤ n ∧ n ≤ (question.options.length : Int))) ∧
    (∀ question (n : Int) option,
      state.currentQuestion = financialQuiz.questions.length →
      questionAt state.currentQuestion = some question →
      parseInt text = some n → 1 ≤ n → n ≤ (question.options.length : Int) →
      question.options[(n - 1).toNat]? = some option →
      r.calls = [(msg.chatId,
        .results (assign state.currentQuestion option.value state.answers))] ∧
      ∀ e, (sendMessage w msg.chatId
          (.results (assign state.currentQuestion option.value state.answers))).2 = some e →
        lookup msg.fromId r.quizState = some (state.answered option.value) ∧
        r.result = .error (.send e)) := by
  intro r text
  have h5 : financialQuiz.questions.length = 5 := rfl
  constructor
  · intro hsend
    constructor
    · intro hnone
      rcases processQuizResponse_quizState toUpperCase sendMessage quizState msg w state hstate
        with h | ⟨value, h | h⟩
      · rw [show r.quizState = quizState from h, hstate] at hnone
        exact absurd hnone (by simp)
      · rw [show r.quizState = _ from h, lookup_assign_self] at hnone
        exact absurd hnone (by simp)
      · have hr : r = processQuizResponse toUpperCase sendMessage quizState msg w := rfl
        by_cases hready : upperText toUpperCase msg = js "READY" ∧ state.currentQuestion = 1
        · have hq := questionAt_exists 1 (by decide) (by decide)
          obtain ⟨q1, hq1⟩ := hq
          simp only [processQuizResponse, hstate, hready, and_self, if_true,
            askQuestion_calls sendMessage msg 1 w q1 hq1,
            askQuestion_result sendMessage msg 1 w q1 hq1, hsend] at hr
          rw [hr] at hnone
          rw [hstate] at hnone
          exact absurd hnone (by simp)
        · cases hq : questionAt state.currentQuestion with
          | none =>
            simp only [processQuizResponse, hstate, hready, if_false, hq] at hr
            rw [hr, hstate] at hnone
            exact absurd hnone (by simp)
          | some question =>
            obtain ⟨hi1, hi5, hlen⟩ := questionAt_some _ _ hq
            cases hv : validAnswerIndex (upperText toUpperCase msg) question.options.length with
            | none =>
              simp only [processQuizResponse, hstate, hready, if_false, hq, hv] at hr
              have hq' : r.quizState = quizState := by
                rw [hr]
                split <;> rfl
              rw [hq', hstate] at hnone
              exact absurd hnone (by simp)
            | some k =>
              obtain ⟨n, hn, hn1, hn2, -⟩ := (validAnswerIndex_eq_some _ _ _).mp hv
              refine ⟨?_, question, n, rfl, hn, hn1, hn2⟩
              by_contra hne
              have hlast : state.currentQuestion + 1 ≤ financialQuiz.questions.length := by
                omega
              have hk := validAnswerIndex_lt _ _ _ hv
              obtain ⟨next, hnext⟩ :=
                questionAt_exists (state.currentQuestion + 1) (by omega) hlast
              simp only [processQuizResponse, hstate, hready, if_false, hq, hv,
                List.getElem?_eq_getElem hk, hlast, if_true,
                askQuestion_calls sendMessage msg _ w next hnext,
                askQuestion_result sendMessage msg _ w next hnext, hsend] at hr
              rw [hr] at hnone
              rw [lookup_assign_self] at hnone
              exact absurd hnone (by simp)
    · rintro ⟨hfinal, question, n, hq, hn, hn1, hn2⟩
      have hv := (validAnswerIndex_eq_some (upperText toUpperCase msg) question.options.length
        (n - 1).toNat).mpr ⟨n, hn, hn1, hn2, rfl⟩
      have hk := validAnswerIndex_lt _ _ _ hv
      have hfin := processQuizResponse_final_answer toUpperCase sendMessage quizState msg w
        state question _ _ hstate hfinal hq hv (List.getElem?_eq_getElem hk)
      rw [show r.quizState = _ from (hfin.2.2 (hsend _ _ _)).1]
      exact lookup_remove_self _ _
  · intro question n option hfinal hq hn hn1 hn2 hoption
    have hv := (validAnswerIndex_eq_some (upperText toUpperCase msg) question.options.length
      (n - 1).toNat).mpr ⟨n, hn, hn1, hn2, rfl⟩
    have hfin := processQuizResponse_final_answer toUpperCase sendMessage quizState msg w
      state question option _ hstate hfinal hq hv hoption
    refine ⟨hfin.1, fun e he => ?_⟩
    obtain ⟨hqs, hres⟩ := hfin.2.1 e he
    exact ⟨by rw [show r.quizState = _ from hqs, lookup_assign_self], hres⟩

/-- The completion of C9 for user 7 at the final question answering `3`. -/
theorem processQuizResponse_removes_session_witness :
    lookup 7 (oneSession 5 [(1, .num 1000), (2, .num 700), (3, .num 0), (4, .num 1000)])
      = some ⟨5, [(1, .num 1000), (2, .num 700), (3, .num 0), (4, .num 1000)], 0⟩ ∧
    lookup 7 (processQuizResponse asciiUpper (delivers QuizMessage)
      (oneSession 5 [(1, .num 1000), (2, .num 700), (3, .num 0), (4, .num 1000)])
      (textFrom7 "3") ()).quizState = none :=
  ⟨by decide,
    ((processQuizResponse_removes_session asciiUpper (delivers QuizMessage)
      (oneSession 5 [(1, .num 1000), (2, .num 700), (3, .num 0), (4, .num 1000)])
      (textFrom7 "3") ()
      ⟨5, [(1, .num 1000), (2, .num 700), (3, .num 0), (4, .num 1000)], 0⟩ (by decide)).1
      (fun _ _ _ => rfl)).mpr ⟨rfl, _, 3, rfl, by decide, by decide, by decide⟩⟩

/-! ## The splitter: empty segments, forced splits, short texts, part markers -/

/-- C11 (the code falls short of it): on the non-empty text made of a space, a line feed and
`abc`, with `maxLength = 3`, the pending chunk is the single space when `abc` arrives; it is
not the empty string, so it is pushed, but trimmed: the first segment is the empty string. -/
theorem splitMessage_empty_segment :
    js " \nabc" ≠ [] ∧
    splitMessage (js " \nabc") 3 = [[], js "abc"] ∧
    [] ∈ splitMessage (js " \nabc") 3 := by
  decide

theorem split_of_not_mem (sep : Nat) (s : JSString) (h : sep ∉ s) : split sep s = [s] := by
  induction s with
  | nil => rfl
  | cons c cs ih =>
    have hc : c ≠ sep := fun hc => h (by simp [hc])
    have hcs : sep ∉ cs := fun hcs => h (by simp [hcs])
    simp [split, hc, ih hcs]

theorem dropWhile_of_no_whiteSpace (s : JSString) (h : ∀ c ∈ s, isWhiteSpace c = false) :
    s.dropWhile isWhiteSpace = s := by
  cases s with
  | nil => rfl
  | cons c cs => simp [List.dropWhile_cons, h c (by simp)]

theorem trim_of_no_whiteSpace (s : JSString) (h : ∀ c ∈ s, isWhiteSpace c = false) :
    trim s = s := by
  unfold trim
  rw [dropWhile_of_no_whiteSpace s h,
    dropWhile_of_no_whiteSpace s.reverse (fun c hc => h c (List.mem_reverse.mp hc)),
    List.reverse_reverse]

theorem splitMessage_single_word (T : JSString) (L : Nat)
    (hword : ∀ c ∈ T, isWhiteSpace c = false) (hlong : L < T.length) :
    splitMessage T L = [T.take L, T.drop L] := by
  have hLF : LF ∉ T := fun h => by
    have := hword LF h
    exact absurd this (by decide)
  have hSP : SP ∉ T := fun h => by
    have := hword SP h
    exact absurd this (by decide)
  have hdrop : T.drop L ≠ [] := by
    intro h
    have := congrArg List.length h
    simp at this
    omega
  have htrim : trim (T.drop L) = T.drop L :=
    trim_of_no_whiteSpace _ (fun c hc => hword c (List.mem_of_mem_drop hc))
  have hnot : ¬ T.length ≤ L := by omega
  have hlen : ([] ++ [SP] ++ T).length > L := by
    simp
    omega
  simp only [splitMessage, hnot, if_false, split_of_not_mem LF T hLF, List.foldl_cons,
    List.foldl_nil, lineStep, gt_iff_lt, hlong, if_true, split_of_not_mem SP T hSP]
  have hflush : flush (⟨[], []⟩ : SplitState) = ⟨[], []⟩ := rfl
  rw [hflush]
  have hstep : wordStep L ⟨[], []⟩ T = ⟨[T.take L], T.drop L⟩ := by
    simp only [wordStep, hlen, if_true]
    simp
  rw [hstep]
  simp [flush, hdrop, htrim]

theorem splitMessage_replicate_9000 :
    splitMessage (List.replicate 9000 97) 4096
      = [List.replicate 4096 97, List.replicate 4904 97] := by
  have hmin : min 4096 9000 = 4096 := by decide
  have hsub : 9000 - 4096 = 4904 := by decide
  have h := splitMessage_single_word (List.replicate 9000 97) 4096
    (fun c hc => by
      rw [List.eq_of_mem_replicate hc]
      decide)
    (by
      rw [List.length_replicate]
      decide)
  rw [List.take_replicate, List.drop_replicate, hmin, hsub] at h
  exact h

/-- C12 (the code falls short of it): a text of 9000 letters `a`, with no space and no line
break, is split by `splitMessage(T, 4096)` into two segments, not three: the first 4096
letters, and the remaining 4904 in one segment longer than 4096. -/
theorem splitMessage_9000_letters :
    (List.replicate 9000 97).length = 9000 ∧
    splitMessage (List.replicate 9000 97) 4096
      = [List.replicate 4096 97, List.replicate 4904 97] ∧
    (splitMessage (List.replicate 9000 97) 4096).length = 2 ∧
    (List.replicate 4904 97).length > 4096 := by
  refine ⟨List.length_replicate _ _, splitMessage_replicate_9000, ?_, ?_⟩
  · rw [splitMessage_replicate_9000]
    rfl
  · rw [List.length_replicate]
    decide

/-- C13: a text no longer than `maxLength` comes back as the one-element list holding the text
itself, untrimmed; in particular the empty text gives a single empty segment. -/
theorem splitMessage_short (T : JSString) (L : Nat) (h : T.length ≤ L) :
    splitMessage T L = [T] ∧ splitMessage [] L = [[]] := by
  constructor
  · simp [splitMessage, h]
  · simp [splitMessage]

/-- The short-text case of C13 on a text with white space at both ends, which stays. -/
theorem splitMessage_short_witness :
    (js "  hi \n").length ≤ 6 ∧
    (splitMessage (js "  hi \n") 6 = [js "  hi \n"] ∧ splitMessage [] 6 = [[]]) :=
  ⟨by decide, splitMessage_short (js "  hi \n") 6 (by decide)⟩

theorem partInfo_eq_partMarker (p : JSString) (index N : Nat) :
    partInfo p index N = partMarker p (index + 1) N := by
  have hsp : js " " = [SP] := by decide
  simp [partInfo, partMarker, hsp]

/-- C14: when `splitMessage(message)` has exactly one segment, `splitMessageWithParts` returns
that segment alone and unmodified; when it has `N > 1` segments, `splitMessageWithParts`
returns `N` strings, the `i`-th (from 1) being the marker built from the prefix, `i` and `N`
followed by the `i`-th segment. -/
theorem splitMessageWithParts_markers (message p : JSString) :
    (∀ segment, splitMessage message = [segment] →
      splitMessageWithParts message p = [segment]) ∧
    ((splitMessage message).length > 1 →
      (splitMessageWithParts message p).length = (splitMessage message).length ∧
      ∀ i, 1 ≤ i → i ≤ (splitMessage message).length →
        (splitMessageWithParts message p)[i - 1]? =
          (splitMessage message)[i - 1]?.map
            (fun segment => partMarker p i (splitMessage message).length ++ segment)) := by
  constructor
  · intro segment h
    simp [splitMessageWithParts, h]
  · intro hN
    have hne : (splitMessage message).length ≠ 1 := by omega
    simp only [splitMessageWithParts, hne, if_false, List.length_mapIdx, List.getElem?_mapIdx,
      true_and]
    intro i h1 hi
    rw [partInfo_eq_partMarker, Nat.sub_add_cancel h1]

/-- The markers of C14 on a message of 9000 letters `a`, which has two segments. -/
theorem splitMessageWithParts_markers_witness :
    (splitMessage (List.replicate 9000 97)).length > 1 ∧
    ((splitMessageWithParts (List.replicate 9000 97) (js "Part")).length
        = (splitMessage (List.replicate 9000 97)).length ∧
      ∀ i, 1 ≤ i → i ≤ (splitMessage (List.replicate 9000 97)).length →
        (splitMessageWithParts (List.replicate 9000 97) (js "Part"))[i - 1]? =
          (splitMessage (List.replicate 9000 97))[i - 1]?.map
            (fun segment =>
              partMarker (js "Part") i (splitMessage (List.replicate 9000 97)).length
                ++ segment)) :=
  have hN : (splitMessage (List.replicate 9000 97)).length > 1 := by
    show (splitMessage (List.replicate 9000 97) 4096).length > 1
    rw [splitMessage_replicate_9000]
    decide
  ⟨hN, (splitMessageWithParts_markers (List.replicate 9000 97) (js "Part")).2 hN⟩

/-! ## The health label -/

theorem scoreResult_healthLevel (answers : Answers) (r : ScoreResult)
    (h : scoreResult answers = some r) : r.healthLevel = healthLevel r.score := by
  unfold scoreResult at h
  split at h
  · cases h
    rfl
  · exact absurd h (by simp)

/-- C15: the health label of a result of `showResults` with score `s` is the best label when
`s ≥ 80`, the good label when `60 ≤ s < 80`, the needs-improvement label when `40 ≤ s < 60`
and the needs-development label when `s < 40`. -/
theorem showResults_health_label (answers : Answers) (r : ScoreResult)
    (h : scoreResult answers = some r) :
    (r.score ≥ 80 → r.healthLevel = .best) ∧
    (60 ≤ r.score ∧ r.score < 80 → r.healthLevel = .good) ∧
    (40 ≤ r.score ∧ r.score < 60 → r.healthLevel = .needsImprovement) ∧
    (r.score < 40 → r.healthLevel = .needsDevelopment) := by
  rw [scoreResult_healthLevel answers r h]
  unfold healthLevel
  refine ⟨fun h1 => ?_, fun h1 => ?_, fun h1 => ?_, fun h1 => ?_⟩ <;> split_ifs <;>
    first | rfl | omega

/-- The label of C15 on the answers income 300, expenses 1000, debt 5000, savings 0, whose
score is 0: the needs-development label. -/
theorem showResults_health_label_witness :
    ∃ r, scoreResult [(1, .num 300), (2, .num 1000), (3, .num 5000), (4, .num 0),
        (5, .tag "debt")] = some r ∧
      (r.score ≥ 80 → r.healthLevel = .best) ∧
      (60 ≤ r.score ∧ r.score < 80 → r.healthLevel = .good) ∧
      (40 ≤ r.score ∧ r.score < 60 → r.healthLevel = .needsImprovement) ∧
      (r.score < 40 → r.healthLevel = .needsDevelopment) :=
  ⟨_, rfl, showResults_health_label
    [(1, .num 300), (2, .num 1000), (3, .num 5000), (4, .num 0), (5, .tag "debt")] _ rfl⟩

/-! ## Routing and starting -/

theorem includes_iff_occurs (s sub : JSString) : includes s sub = true ↔ sub <:+: s := by
  induction s with
  | nil =>
    simp only [includes, List.isPrefixOf_iff_prefix, List.prefix_nil, List.infix_nil]
  | cons c rest ih =>
    simp only [includes, Bool.or_eq_true, List.isPrefixOf_iff_prefix, ih, List.infix_cons_iff]

/-- C16: `isQuizMessage` returns true exactly when the sender has an active session, or the
upper-cased text (empty when the message has no text) equals `READY`, equals `START QUIZ`, or
contains `QUIZ`. -/
theorem isQuizMessage_iff (toUpperCase : JSString → JSString) (quizState : QuizState)
    (msg : Msg) :
    isQuizMessage toUpperCase quizState msg = true ↔
      (∃ state, lookup msg.fromId quizState = some state) ∨
      upperText toUpperCase msg = js "READY" ∨
      upperText toUpperCase msg = js "START QUIZ" ∨
      js "QUIZ" <:+: upperText toUpperCase msg := by
  unfold isQuizMessage
  simp only [includes_iff_occurs]
  cases hs : lookup msg.fromId quizState with
  | some state => simp
  | none =>
    by_cases hk : upperText toUpperCase msg = js "READY" ∨
        upperText toUpperCase msg = js "START QUIZ" ∨ js "QUIZ" <:+: upperText toUpperCase msg
    · simp [hk]
    · simp [hk]

/-- C17: after `startQuiz` for a user, that user's session has `currentQuestion = 1` and an
empty answer map, whatever session the user had before and whether or not the send succeeds,
and the session of every other user is as before. -/
theorem startQuiz_fresh_session {ε σ : Type} (sendMessage : SendMessage QuizMessage ε σ)
    (quizState : QuizState) (msg : Msg) (now : Nat) (w : σ) :
    let r := startQuiz sendMessage quizState msg now w
    lookup msg.fromId r.quizState
      = some { currentQuestion := 1, answers := [], startTime := now } ∧
    ∀ other, other ≠ msg.fromId → lookup other r.quizState = lookup other quizState := by
  intro r
  have hr : r.quizState
      = assign msg.fromId { currentQuestion := 1, answers := [], startTime := now } quizState := by
    simp only [r, startQuiz]
    split <;> rfl
  rw [hr]
  exact ⟨lookup_assign_self _ _ _, fun other h => lookup_assign_other _ _ _ _ h⟩

/-! ## The access gate: unpaid users -/

/-- C18: for an existing user who has not paid, whatever the feature, the user's tier and
the capability table, `checkAccess` returns `hasAccess = false`, `userTier = "free"`, the
pay-first message pointing to `/pricing`, and no user record. -/
theorem checkAccess_unpaid {ε : Type} (findOne : Nat → Outcome ε (Option User))
    (hasFeatureAccess : String → String → Outcome ε Bool)
    (getTierBadge : String → Outcome ε String) (telegramId : Nat) (feature : String)
    (user : User) (hfound : findOne telegramId = .ok (some user))
    (hunpaid : user.isPaid = false) :
    checkAccess findOne hasFeatureAccess getTierBadge telegramId feature =
      { hasAccess := false, userTier := "free",
        message := some "🔒 សូមទូទាត់មុនដើម្បីចូលរួមកម្មវិធី។ ប្រើ /pricing ដើម្បីមើលព័ត៌មាន។",
        user := none } := by
  simp [checkAccess, hfound, hunpaid]

/-- The denial of C18 for user 7 of a store of unpaid `vip` users, with a capability table
that would grant the feature. -/
theorem checkAccess_unpaid_witness :
    unpaidStore 7 = .ok (some ⟨7, false, some "vip"⟩) ∧
    (⟨7, false, some "vip"⟩ : User).isPaid = false ∧
    checkAccess unpaidStore grantsAll tierName 7 "premium_tools" =
      { hasAccess := false, userTier := "free",
        message := some "🔒 សូមទូទាត់មុនដើម្បីចូលរួមកម្មវិធី។ ប្រើ /pricing ដើម្បីមើលព័ត៌មាន។",
        user := none } :=
  ⟨rfl, rfl, checkAccess_unpaid unpaidStore grantsAll tierName 7 "premium_tools"
    ⟨7, false, some "vip"⟩ rfl rfl⟩

/-! ## The quiz: what one response does to the session map and what it sends -/

theorem processQuizResponse_no_session {ε σ : Type} (toUpperCase : JSString → JSString)
    (sendMessage : SendMessage QuizMessage ε σ) (quizState : QuizState) (msg : Msg) (w : σ)
    (hnone : lookup msg.fromId quizState = none) :
    (processQuizResponse toUpperCase sendMessage quizState msg w).quizState = quizState ∧
    (processQuizResponse toUpperCase sendMessage quizState msg w).calls = [] := by
  simp [processQuizResponse, hnone]

theorem processQuizResponse_ready {ε σ : Type} (toUpperCase : JSString → JSString)
    (sendMessage : SendMessage QuizMessage ε σ) (quizState : QuizState) (msg : Msg) (w : σ)
    (state : QuizSession) (hstate : lookup msg.fromId quizState = some state)
    (hready : upperText toUpperCase msg = js "READY" ∧ state.currentQuestion = 1) :
    (processQuizResponse toUpperCase sendMessage quizState msg w).quizState = quizState ∧
    ∃ first, questionAt 1 = some first ∧
      (processQuizResponse toUpperCase sendMessage quizState msg w).calls
        = [(msg.chatId, .question 1 first)] := by
  obtain ⟨first, hfirst⟩ := questionAt_exists 1 (by decide) (by decide)
  simp only [processQuizResponse, hstate, hready, and_self, if_true,
    askQuestion_calls sendMessage msg 1 w first hfirst]
  refine ⟨?_, first, hfirst, ?_⟩ <;> split <;> rfl

theorem processQuizResponse_no_question {ε σ : Type} (toUpperCase : JSString → JSString)
    (sendMessage : SendMessage QuizMessage ε σ) (quizState : QuizState) (msg : Msg) (w : σ)
    (state : QuizSession) (hstate : lookup msg.fromId quizState = some state)
    (hnot : ¬(upperText toUpperCase msg = js "READY" ∧ state.currentQuestion = 1))
    (hquestion : questionAt state.currentQuestion = none) :
    (processQuizResponse toUpperCase sendMessage quizState msg w).quizState = quizState ∧
    (processQuizResponse toUpperCase sendMessage quizState msg w).calls = [] := by
  simp [processQuizResponse, hstate, hnot, hquestion]

theorem processQuizResponse_reject {ε σ : Type} (toUpperCase : JSString → JSString)
    (sendMessage : SendMessage QuizMessage ε σ) (quizState : QuizState) (msg : Msg) (w : σ)
    (state : QuizSession) (question : Question)
    (hstate : lookup msg.fromId quizState = some state)
    (hnot : ¬(upperText toUpperCase msg = js "READY" ∧ state.currentQuestion = 1))
    (hquestion : questionAt state.currentQuestion = some question)
    (hidx : validAnswerIndex (upperText toUpperCase msg) question.options.length = none) :
    (processQuizResponse toUpperCase sendMessage quizState msg w).quizState = quizState ∧
    (processQuizResponse toUpperCase sendMessage quizState msg w).calls
      = [(msg.chatId, .invalid question.options.length)] := by
  simp only [processQuizResponse, hstate, hnot, if_false, hquestion, hidx]
  constructor <;> split <;> rfl

theorem processQuizResponse_advance {ε σ : Type} (toUpperCase : JSString → JSString)
    (sendMessage : SendMessage QuizMessage ε σ) (quizState : QuizState) (msg : Msg) (w : σ)
    (state : QuizSession) (question : Question) (option : QuizOption) (k : Nat)
    (hstate : lookup msg.fromId quizState = some state)
    (hnot : ¬(upperText toUpperCase msg = js "READY" ∧ state.currentQuestion = 1))
    (hquestion : questionAt state.currentQuestion = some question)
    (hidx : validAnswerIndex (upperText toUpperCase msg) question.options.length = some k)
    (hoption : question.options[k]? = some option)
    (hmore : state.currentQuestion + 1 ≤ financialQuiz.questions.length) :
    (processQuizResponse toUpperCase sendMessage quizState msg w).quizState
      = assign msg.fromId (state.answered option.value) quizState ∧
    ∃ next, questionAt (state.currentQuestion + 1) = some next ∧
      (processQuizResponse toUpperCase sendMessage quizState msg w).calls
        = [(msg.chatId, .question (state.currentQuestion + 1) next)] := by
  obtain ⟨next, hnext⟩ := questionAt_exists (state.currentQuestion + 1) (by omega) hmore
  simp only [processQuizResponse, hstate, hnot, if_false, hquestion, hidx, hoption, hmore,
    if_true, askQuestion_calls sendMessage msg _ w next hnext]
  refine ⟨?_, next, hnext, ?_⟩ <;> split <;> rfl

/-! ## The quiz: the session as `startQuiz` creates it -/

/-- C19 as stated fails on the text `2`: in the session exactly as created by `startQuiz`,
before any `READY`, the message `2` is taken as the answer to question 1; 600 is recorded
under `q1` and `currentQuestion` becomes 2. -/
theorem processQuizResponse_answer_before_ready :
    (startQuiz (delivers QuizMessage) [] (textFrom7 "start quiz") 0 ()).quizState
      = oneSession 1 [] ∧
    (processQuizResponse asciiUpper (delivers QuizMessage)
      (startQuiz (delivers QuizMessage) [] (textFrom7 "start quiz") 0 ()).quizState
      (textFrom7 "2") ()).quizState = oneSession 2 [(1, .num 600)] ∧
    lookup 7 (processQuizResponse asciiUpper (delivers QuizMessage)
      (startQuiz (delivers QuizMessage) [] (textFrom7 "start quiz") 0 ()).quizState
      (textFrom7 "2") ()).quizState ≠ some ⟨1, [], 0⟩ := by
  decide

/-- C19, amended: in the session exactly as created by `startQuiz` (question 1, no answers),
a message whose upper-cased text is `READY` leaves the session as it is and sends question 1;
a message for which `parseInt` of the upper-cased text is an option number of question 1 (for
example `2`) is recorded as the answer to question 1 and moves `currentQuestion` to 2; every
other message records no answer, leaves `currentQuestion` at 1 and gets the re-prompt. -/
theorem processQuizResponse_after_start {ε σ : Type} (toUpperCase : JSString → JSString)
    (sendMessage : SendMessage QuizMessage ε σ) (quizState : QuizState) (msg : Msg) (w : σ)
    (startTime : Nat)
    (hstate : lookup msg.fromId quizState
      = some { currentQuestion := 1, answers := [], startTime := startTime }) :
    let r := processQuizResponse toUpperCase sendMessage quizState msg w
    let text := upperText toUpperCase msg
    (text = js "READY" →
      r.quizState = quizState ∧
      ∃ first, questionAt 1 = some first ∧ r.calls = [(msg.chatId, .question 1 first)]) ∧
    (∀ (n : Int) first option, parseInt text = some n → 1 ≤ n →
      questionAt 1 = some first → n ≤ (first.options.length : Int) →
      first.options[(n - 1).toNat]? = some option →
      lookup msg.fromId r.quizState
        = some { currentQuestion := 2, answers := [(1, option.value)],
                 startTime := startTime } ∧
      ∃ second, questionAt 2 = some second ∧ r.calls = [(msg.chatId, .question 2 second)]) ∧
    (text ≠ js "READY" →
      (∀ n : Int, parseInt text = some n → n < 1 ∨ 4 < n) →
      r.quizState = quizState ∧ r.calls = [(msg.chatId, .invalid 4)]) := by
  intro r text
  refine ⟨fun hready => ?_, fun n first option hn h1 hfirst h4 hoption => ?_,
    fun hnot hinvalid => ?_⟩
  · exact processQuizResponse_ready toUpperCase sendMessage quizState msg w _ hstate
      ⟨hready, rfl⟩
  · have hnot : ¬(upperText toUpperCase msg = js "READY" ∧
        ({ currentQuestion := 1, answers := [], startTime := startTime } :
          QuizSession).currentQuestion = 1) := by
      rintro ⟨hready, -⟩
      have hnone : parseInt (js "READY") = none := by decide
      rw [show text = js "READY" from hready, hnone] at hn
      exact absurd hn (by simp)
    have hv := (validAnswerIndex_eq_some (upperText toUpperCase msg) first.options.length
      (n - 1).toNat).mpr ⟨n, hn, h1, h4, rfl⟩
    have hadv := processQuizResponse_advance toUpperCase sendMessage quizState msg w _ first
      option _ hstate hnot hfirst hv hoption
      (show 1 + 1 ≤ financialQuiz.questions.length by decide)
    refine ⟨?_, hadv.2⟩
    rw [show r.quizState = _ from hadv.1, lookup_assign_self]
    rfl
  · obtain ⟨first, hfirst⟩ := questionAt_exists 1 (by decide) (by decide)
    have hlen := (questionAt_some 1 first hfirst).2.2
    have hv := validAnswerIndex_eq_none (upperText toUpperCase msg) first.options.length
      (by rw [hlen]; exact hinvalid)
    have hrej := processQuizResponse_reject toUpperCase sendMessage quizState msg w _ first
      hstate (fun h => hnot h.1) hfirst hv
    rw [hlen] at hrej
    exact hrej

/-- The ready keyword of C19 in lower case, sent by user 7 right after `startQuiz`: the
session stays as created and question 1 is sent. -/
theorem processQuizResponse_after_start_witness :
    lookup 7 (startQuiz (delivers QuizMessage) [] (textFrom7 "start quiz") 0 ()).quizState
      = some ⟨1, [], 0⟩ ∧
    upperText asciiUpper (textFrom7 "ready") = js "READY" ∧
    (processQuizResponse asciiUpper (delivers QuizMessage)
      (startQuiz (delivers QuizMessage) [] (textFrom7 "start quiz") 0 ()).quizState
      (textFrom7 "ready") ()).quizState
      = (startQuiz (delivers QuizMessage) [] (textFrom7 "start quiz") 0 ()).quizState ∧
    ∃ first, questionAt 1 = some first ∧
      (processQuizResponse asciiUpper (delivers QuizMessage)
        (startQuiz (delivers QuizMessage) [] (textFrom7 "start quiz") 0 ()).quizState
        (textFrom7 "ready") ()).calls = [(7, .question 1 first)] :=
  ⟨by decide, by decide,
    (processQuizResponse_after_start asciiUpper (delivers QuizMessage)
      (startQuiz (delivers QuizMessage) [] (textFrom7 "start quiz") 0 ()).quizState
      (textFrom7 "ready") () 0 (by decide)).1 (by decide)⟩

/-! ## The quiz: sessions reachable from the empty map -/

theorem mem_assign {β : Type} (k : Nat) (v : β) (m : List (Nat × β)) (p : Nat × β)
    (h : p ∈ assign k v m) : p = (k, v) ∨ p ∈ m := by
  induction m with
  | nil => simpa [assign] using h
  | cons q rest ih =>
    obtain ⟨k1, v1⟩ := q
    by_cases hk : k1 = k
    · simp only [assign, hk, if_true, List.mem_cons] at h
      rcases h with h | h
      · exact Or.inl h
      · exact Or.inr (List.mem_cons_of_mem _ h)
    · simp only [assign, hk, if_false, List.mem_cons] at h
      rcases h with h | h
      · exact Or.inr (by simp [h])
      · rcases ih h with h1 | h1
        · exact Or.inl h1
        · exact Or.inr (List.mem_cons_of_mem _ h1)

theorem mem_remove {β : Type} (k : Nat) (m : List (Nat × β)) (p : Nat × β)
    (h : p ∈ remove k m) : p.1 ≠ k ∧ p ∈ m := by
  simp only [remove, List.mem_filter, decide_eq_true_eq] at h
  exact ⟨h.2, h.1⟩

theorem mem_of_lookup {β : Type} (k : Nat) (v : β) (m : List (Nat × β))
    (h : lookup k m = some v) : (k, v) ∈ m := by
  induction m with
  | nil => exact absurd h (by simp [lookup])
  | cons q rest ih =>
    obtain ⟨k1, v1⟩ := q
    by_cases hk : k1 = k
    · simp only [lookup, hk, if_true, Option.some.injEq] at h
      simp [hk, h]
    · simp only [lookup, hk, if_false] at h
      exact List.mem_cons_of_mem _ (ih h)

theorem fresh_wellFormed (now : Nat) :
    QuizSession.wellFormed { currentQuestion := 1, answers := [], startTime := now } := by
  refine ⟨le_refl _, show 1 ≤ financialQuiz.questions.length by decide, fun k => ?_,
    fun k v h => ?_⟩
  · simp only [lookup, Option.isSome_none]
    constructor
    · intro h
      exact absurd h (by simp)
    · intro h
      omega
  · exact absurd h (by simp [lookup])

theorem optionValues_of_mem (i : Nat) (question : Question) (option : QuizOption)
    (hquestion : questionAt i = some question) (hoption : option ∈ question.options) :
    option.value ∈ optionValues i := by
  simp only [optionValues, hquestion, List.mem_map]
  exact ⟨option, hoption, rfl⟩

theorem answered_wellFormed (state : QuizSession) (question : Question) (option : QuizOption)
    (hwf : state.wellFormed) (hquestion : questionAt state.currentQuestion = some question)
    (hoption : option ∈ question.options)
    (hmore : state.currentQuestion + 1 ≤ financialQuiz.questions.length) :
    (state.answered option.value).wellFormed := by
  obtain ⟨h1, h5, hdom, hval⟩ := hwf
  refine ⟨?_, hmore, fun k => ?_, fun k v h => ?_⟩
  · show 1 ≤ state.currentQuestion + 1
    omega
  · show (lookup k (assign state.currentQuestion option.value state.answers)).isSome = true ↔
      1 ≤ k ∧ k < state.currentQuestion + 1
    by_cases hk : k = state.currentQuestion
    · subst hk
      rw [lookup_assign_self]
      simp only [Option.isSome_some, true_iff]
      omega
    · rw [lookup_assign_other _ _ _ _ hk, hdom k]
      omega
  · have h' : lookup k (assign state.currentQuestion option.value state.answers) = some v := h
    by_cases hk : k = state.currentQuestion
    · subst hk
      rw [lookup_assign_self] at h'
      cases h'
      exact optionValues_of_mem _ question option hquestion hoption
    · rw [lookup_assign_other _ _ _ _ hk] at h'
      exact hval k v h'

theorem final_allAnswered (state : QuizSession) (question : Question) (option : QuizOption)
    (hwf : state.wellFormed) (hquestion : questionAt state.currentQuestion = some question)
    (hoption : option ∈ question.options)
    (hfinal : state.currentQuestion = financialQuiz.questions.length) :
    allAnswered (assign state.currentQuestion option.value state.answers) := by
  obtain ⟨h1, h5, hdom, hval⟩ := hwf
  intro k hk1 hk5
  by_cases hk : k = state.currentQuestion
  · subst hk
    exact ⟨option.value, lookup_assign_self _ _ _,
      optionValues_of_mem _ question option hquestion hoption⟩
  · rw [lookup_assign_other _ _ _ _ hk]
    have hsome := (hdom k).mpr ⟨hk1, by omega⟩
    obtain ⟨v, hv⟩ := Option.isSome_iff_exists.mp hsome
    exact ⟨v, hv, hval k v hv⟩

theorem startQuiz_fields {ε σ : Type} (sendMessage : SendMessage QuizMessage ε σ)
    (quizState : QuizState) (msg : Msg) (now : Nat) (w : σ) :
    (startQuiz sendMessage quizState msg now w).quizState
      = assign msg.fromId { currentQuestion := 1, answers := [], startTime := now } quizState ∧
    (startQuiz sendMessage quizState msg now w).calls = [(msg.chatId, .intro)] := by
  simp only [startQuiz]
  constructor <;> split <;> rfl

theorem sound_of_step {σ : Type} (t : QuizTrace σ) (ht : t.sound) (quizState : QuizState)
    (w : σ) (calls : List (Nat × QuizMessage))
    (hsessions : ∀ p ∈ quizState, p ∈ t.quizState ∨ p.2.wellFormed)
    (hcalls : ∀ chatId answers, (chatId, QuizMessage.results answers) ∈ calls →
      allAnswered answers) :
    QuizTrace.sound ⟨quizState, w, t.sent ++ calls⟩ := by
  refine ⟨fun p hp => ?_, fun chatId answers hmem => ?_⟩
  · rcases hsessions p hp with h | h
    · exact ht.1 p h
    · exact h
  · rcases List.mem_append.mp hmem with h | h
    · exact ht.2 chatId answers h
    · exact hcalls chatId answers h

theorem runCall_sound {ε σ : Type} (toUpperCase : JSString → JSString)
    (sendMessage : SendMessage QuizMessage ε σ)
    (hsend : ∀ w chatId text, (sendMessage w chatId text).2 = none)
    (t : QuizTrace σ) (ht : t.sound) (call : QuizCall) :
    (runCall toUpperCase sendMessage t call).sound := by
  cases call with
  | startQuiz msg now =>
    obtain ⟨hq, hc⟩ := startQuiz_fields sendMessage t.quizState msg now t.world
    refine sound_of_step t ht _ _ _ (fun p hp => ?_) (fun chatId answers hmem => ?_)
    · rw [hq] at hp
      rcases mem_assign _ _ _ _ hp with h | h
      · rw [h]
        exact Or.inr (fresh_wellFormed now)
      · exact Or.inl h
    · rw [hc] at hmem
      simp at hmem
  | processQuizResponse msg =>
    cases hl : lookup msg.fromId t.quizState with
    | none =>
      obtain ⟨hq, hc⟩ := processQuizResponse_no_session toUpperCase sendMessage t.quizState msg
        t.world hl
      refine sound_of_step t ht _ _ _ (fun p hp => ?_) (fun chatId answers hmem => ?_)
      · rw [hq] at hp
        exact Or.inl hp
      · rw [hc] at hmem
        simp at hmem
    | some state =>
      have hwf : state.wellFormed := ht.1 _ (mem_of_lookup _ _ _ hl)
      by_cases hready : upperText toUpperCase msg = js "READY" ∧ state.currentQuestion = 1
      · obtain ⟨hq, first, -, hc⟩ := processQuizResponse_ready toUpperCase sendMessage
          t.quizState msg t.world state hl hready
        refine sound_of_step t ht _ _ _ (fun p hp => ?_) (fun chatId answers hmem => ?_)
        · rw [hq] at hp
          exact Or.inl hp
        · rw [hc] at hmem
          simp at hmem
      · cases hquestion : questionAt state.currentQuestion with
        | none =>
          obtain ⟨hq, hc⟩ := processQuizResponse_no_question toUpperCase sendMessage
            t.quizState msg t.world state hl hready hquestion
          refine sound_of_step t ht _ _ _ (fun p hp => ?_) (fun chatId answers hmem => ?_)
          · rw [hq] at hp
            exact Or.inl hp
          · rw [hc] at hmem
            simp at hmem
        | some question =>
          cases hv : validAnswerIndex (upperText toUpperCase msg) question.options.length with
          | none =>
            obtain ⟨hq, hc⟩ := processQuizResponse_reject toUpperCase sendMessage
              t.quizState msg t.world state question hl hready hquestion hv
            refine sound_of_step t ht _ _ _ (fun p hp => ?_) (fun chatId answers hmem => ?_)
            · rw [hq] at hp
              exact Or.inl hp
            · rw [hc] at hmem
              simp at hmem
          | some k =>
            have hk := validAnswerIndex_lt _ _ _ hv
            have hoption : question.options[k]? = some question.options[k] :=
              List.getElem?_eq_getElem hk
            have hmem : question.options[k] ∈ question.options := List.getElem_mem hk
            by_cases hmore : state.currentQuestion + 1 ≤ financialQuiz.questions.length
            · obtain ⟨hq, next, -, hc⟩ := processQuizResponse_advance toUpperCase sendMessage
                t.quizState msg t.world state question _ k hl hready hquestion hv hoption hmore
              refine sound_of_step t ht _ _ _ (fun p hp => ?_) (fun chatId answers hm => ?_)
              · rw [hq] at hp
                rcases mem_assign _ _ _ _ hp with h | h
                · rw [h]
                  exact Or.inr (answered_wellFormed state question _ hwf hquestion hmem hmore)
                · exact Or.inl h
              · rw [hc] at hm
                simp at hm
            · have hfinal : state.currentQuestion = financialQuiz.questions.length := by
                have := (questionAt_some _ _ hquestion).2.1
                omega
              obtain ⟨hc, -, hok⟩ := processQuizResponse_final_answer toUpperCase sendMessage
                t.quizState msg t.world state question _ k hl hfinal hquestion hv hoption
              obtain ⟨hq, -⟩ := hok (hsend _ _ _)
              refine sound_of_step t ht _ _ _ (fun p hp => ?_) (fun chatId answers hm => ?_)
              · rw [hq] at hp
                obtain ⟨hne, hp1⟩ := mem_remove _ _ _ hp
                rcases mem_assign _ _ _ _ hp1 with h | h
                · rw [h] at hne
                  exact absurd rfl hne
                · exact Or.inl h
              · rw [hc] at hm
                simp only [List.mem_singleton, Prod.mk.injEq, QuizMessage.results.injEq] at hm
                rw [hm.2]
                exact final_allAnswered state question _ hwf hquestion hmem hfinal

theorem foldl_runCall_sound {ε σ : Type} (toUpperCase : JSString → JSString)
    (sendMessage : SendMessage QuizMessage ε σ)
    (hsend : ∀ w chatId text, (sendMessage w chatId text).2 = none)
    (calls : List QuizCall) (t : QuizTrace σ) (ht : t.sound) :
    (calls.foldl (runCall toUpperCase sendMessage) t).sound := by
  induction calls generalizing t with
  | nil => exact ht
  | cons call rest ih =>
    exact ih _ (runCall_sound toUpperCase sendMessage hsend t ht call)

/-- C20: assuming sends succeed, after any sequence of `startQuiz` and `processQuizResponse`
calls made from the empty session map, every stored session has
`1 ≤ currentQuestion ≤ number of questions`, holds answers exactly for the questions before
`currentQuestion`, each a value of an option of its question; and every report sent was
computed by `showResults` from an answer map holding all five answers, so that none of its
defaults stands in for a missing answer. -/
theorem quiz_sessions_well_formed {ε σ : Type} (toUpperCase : JSString → JSString)
    (sendMessage : SendMessage QuizMessage ε σ) (w : σ) (calls : List QuizCall)
    (hsend : ∀ w1 chatId text, (sendMessage w1 chatId text).2 = none) :
    let t := runCalls toUpperCase sendMessage w calls
    (∀ userId session, (userId, session) ∈ t.quizState →
      1 ≤ session.currentQuestion ∧
      session.currentQuestion ≤ financialQuiz.questions.length ∧
      (∀ k, (lookup k session.answers).isSome = true ↔ 1 ≤ k ∧ k < session.currentQuestion) ∧
      ∀ k v, lookup k session.answers = some v → v ∈ optionValues k) ∧
    ∀ chatId answers, (chatId, QuizMessage.results answers) ∈ t.sent →
      ∀ k, 1 ≤ k → k ≤ financialQuiz.questions.length →
        ∃ v, lookup k answers = some v ∧ v ∈ optionValues k := by
  intro t
  have hsound : t.sound :=
    foldl_runCall_sound toUpperCase sendMessage hsend calls ⟨[], w, []⟩
      ⟨fun p hp => absurd hp (by simp), fun c a h => absurd h (by simp)⟩
  exact ⟨fun userId session h => hsound.1 (userId, session) h, hsound.2⟩

/-- The invariant of C20 on a full quiz of user 7 followed by a second start and one answer,
on a transport that delivers: the stored session is at question 2 with one answer, and the
one report sent was computed from five answers. -/
theorem quiz_sessions_well_formed_witness :
    (∀ w1 chatId text, (delivers QuizMessage w1 chatId text).2 = none) ∧
    (runCalls asciiUpper (delivers QuizMessage) () quizOfUser7).quizState
      = [(7, ⟨2, [(1, .num 600)], 9⟩)] ∧
    (7, QuizMessage.results [(1, .num 1000), (2, .num 700), (3, .num 0), (4, .num 1000),
      (5, .tag "save")]) ∈ (runCalls asciiUpper (delivers QuizMessage) () quizOfUser7).sent ∧
    (let t := runCalls asciiUpper (delivers QuizMessage) () quizOfUser7
     (∀ userId session, (userId, session) ∈ t.quizState →
       1 ≤ session.currentQuestion ∧
       session.currentQuestion ≤ financialQuiz.questions.length ∧
       (∀ k, (lookup k session.answers).isSome = true ↔
         1 ≤ k ∧ k < session.currentQuestion) ∧
       ∀ k v, lookup k session.answers = some v → v ∈ optionValues k) ∧
     ∀ chatId answers, (chatId, QuizMessage.results answers) ∈ t.sent →
       ∀ k, 1 ≤ k → k ≤ financialQuiz.questions.length →
         ∃ v, lookup k answers = some v ∧ v ∈ optionValues k) :=
  ⟨fun _ _ _ => rfl, by decide, by decide,
    quiz_sessions_well_formed asciiUpper (delivers QuizMessage) () quizOfUser7
      (fun _ _ _ => rfl)⟩

/-! ## Part markers and the limit -/

theorem split_append_sep (sep : Nat) (a b : JSString) (h : sep ∉ a) :
    split sep (a ++ sep :: b) = a :: split sep b := by
  induction a with
  | nil => simp [split]
  | cons c cs ih =>
    have hc : c ≠ sep := fun hc => h (by simp [hc])
    have hcs : sep ∉ cs := fun hcs => h (by simp [hcs])
    simp [split, hc, ih hcs]

theorem lineStep_full_line (L : Nat) (chunks : List JSString) (line : JSString)
    (h : line.length = L) :
    lineStep L ⟨chunks, []⟩ line = ⟨chunks ++ [line], []⟩ := by
  have h1 : ¬ line.length > L := by omega
  have h2 : ([] ++ [LF] ++ line).length > L := by
    simp
    omega
  simp only [lineStep, h1, if_false, h2, if_true]
  simp

theorem splitMessage_two_full_lines (L : Nat) (line : JSString) (hLF : LF ∉ line)
    (h : line.length = L) :
    splitMessage (line ++ LF :: line) L = [line, line] := by
  have hnot : ¬ (line ++ LF :: line).length ≤ L := by
    simp
    omega
  simp only [splitMessage, hnot, if_false, split_append_sep LF line line hLF,
    split_of_not_mem LF line hLF, List.foldl_cons, List.foldl_nil,
    lineStep_full_line L _ line h]
  simp [flush]

theorem mapIdx_pair {α β : Type} (f : Nat → α → β) (a b : α) :
    [a, b].mapIdx f = [f 0 a, f 1 b] := by
  simp [List.mapIdx_cons]

theorem splitMessage_twoFullLines :
    splitMessage twoFullLines 4096 = [List.replicate 4096 97, List.replicate 4096 97] :=
  splitMessage_two_full_lines 4096 (List.replicate 4096 97)
    (fun h => absurd (List.eq_of_mem_replicate h) (by decide))
    (List.length_replicate _ _)

/-- C21 (the code falls short of it): for a message of two lines of 4096 letters each,
`splitMessage` returns the two lines, each exactly at the limit, and
`splitMessageWithParts` puts the 15-unit marker in front of each: both strings returned are
4111 long, more than `MAX_MESSAGE_LENGTH = 4096`. -/
theorem splitMessageWithParts_exceeds_limit :
    MAX_MESSAGE_LENGTH = 4096 ∧
    splitMessageWithParts twoFullLines (js "Part")
      = [partInfo (js "Part") 0 2 ++ List.replicate 4096 97,
         partInfo (js "Part") 1 2 ++ List.replicate 4096 97] ∧
    (partInfo (js "Part") 0 2 ++ List.replicate 4096 97).length = 4111 ∧
    (partInfo (js "Part") 1 2 ++ List.replicate 4096 97).length = 4111 ∧
    4111 > MAX_MESSAGE_LENGTH := by
  have hsplit : splitMessage twoFullLines
      = [List.replicate 4096 97, List.replicate 4096 97] := splitMessage_twoFullLines
  have h0 : (partInfo (js "Part") 0 2).length = 15 := by decide
  have h1 : (partInfo (js "Part") 1 2).length = 15 := by decide
  refine ⟨rfl, ?_, ?_, ?_, by decide⟩
  · have hne : ¬ ([List.replicate 4096 97, List.replicate 4096 97] : List JSString).length = 1 :=
      by
        rw [List.length_cons, List.length_cons, List.length_nil]
        decide
    simp only [splitMessageWithParts, hsplit, hne, if_false, mapIdx_pair]
    rfl
  · rw [List.length_append, h0, List.length_replicate]
  · rw [List.length_append, h1, List.length_replicate]

/-! ## The splitter: texts whose words fit -/

theorem trim_length_le (s : JSString) : (trim s).length ≤ s.length := by
  unfold trim
  rw [List.length_reverse]
  calc ((s.dropWhile isWhiteSpace).reverse.dropWhile isWhiteSpace).length
      ≤ (s.dropWhile isWhiteSpace).reverse.length := (List.dropWhile_sublist _).length_le
    _ = (s.dropWhile isWhiteSpace).length := List.length_reverse _
    _ ≤ s.length := (List.dropWhile_sublist _).length_le

theorem within_push (L : Nat) (st : SplitState) (chunk pending : JSString)
    (hst : st.within L) (hchunk : chunk.length ≤ L) (hpending : pending.length ≤ L) :
    SplitState.within L ⟨st.chunks ++ [chunk], pending⟩ := by
  refine ⟨fun c hc => ?_, hpending⟩
  rcases List.mem_append.mp hc with h | h
  · exact hst.1 c h
  · rw [List.mem_singleton.mp h]
    exact hchunk

theorem flush_within (L : Nat) (st : SplitState) (hst : st.within L) :
    (flush st).within L := by
  unfold flush
  split
  · exact within_push L st _ _ hst (le_trans (trim_length_le _) hst.2) (Nat.zero_le _)
  · exact hst

theorem wordStep_within (L : Nat) (st : SplitState) (word : JSString) (hst : st.within L)
    (hword : word.length ≤ L) : (wordStep L st word).within L := by
  unfold wordStep
  split
  · next hlong =>
    split
    · exact within_push L st _ _ hst (le_trans (trim_length_le _) hst.2) hword
    · next hempty =>
      have hc : st.currentChunk = [] := by simpa using hempty
      refine within_push L st _ _ hst ?_ ?_
      · rw [List.length_take]
        exact Nat.min_le_left _ _
      · rw [List.length_drop]
        omega
  · next hfits =>
    refine ⟨hst.1, ?_⟩
    have hle : (st.currentChunk ++ [SP] ++ word).length ≤ L := Nat.le_of_not_lt hfits
    simp only [List.length_append, List.length_singleton] at hle
    show (st.currentChunk ++ (if st.currentChunk ≠ [] then [SP] else []) ++ word).length ≤ L
    split <;> simp only [List.length_append, List.length_singleton, List.length_nil] <;> omega

theorem foldl_wordStep_within (L : Nat) (words : List JSString) (st : SplitState)
    (hst : st.within L) (hwords : ∀ word ∈ words, word.length ≤ L) :
    (words.foldl (wordStep L) st).within L := by
  induction words generalizing st with
  | nil => exact hst
  | cons word rest ih =>
    exact ih _ (wordStep_within L st word hst (hwords word (by simp)))
      (fun w hw => hwords w (List.mem_cons_of_mem _ hw))

theorem lineStep_within (L : Nat) (st : SplitState) (line : JSString) (hst : st.within L)
    (hwords : ∀ word ∈ split SP line, word.length ≤ L) : (lineStep L st line).within L := by
  unfold lineStep
  split
  · exact foldl_wordStep_within L _ _ (flush_within L st hst) hwords
  · next hshort =>
    have hline : line.length ≤ L := Nat.le_of_not_lt hshort
    split
    · split
      · exact within_push L st _ _ hst (le_trans (trim_length_le _) hst.2) hline
      · exact within_push L st _ _ hst hline hst.2
    · next hfits =>
      refine ⟨hst.1, ?_⟩
      have hle : (st.currentChunk ++ [LF] ++ line).length ≤ L := Nat.le_of_not_lt hfits
      simp only [List.length_append, List.length_singleton] at hle
      show (st.currentChunk ++ (if st.currentChunk ≠ [] then [LF] else []) ++ line).length ≤ L
      split <;> simp only [List.length_append, List.length_singleton, List.length_nil] <;>
        omega

theorem foldl_lineStep_within (L : Nat) (lines : List JSString) (st : SplitState)
    (hst : st.within L) (hwords : ∀ line ∈ lines, ∀ word ∈ split SP line, word.length ≤ L) :
    (lines.foldl (lineStep L) st).within L := by
  induction lines generalizing st with
  | nil => exact hst
  | cons line rest ih =>
    exact ih _ (lineStep_within L st line hst (hwords line (by simp)))
      (fun l hl => hwords l (List.mem_cons_of_mem _ hl))

theorem split_pieces (sep : Nat) (s : JSString) :
    ∃ first rest, split sep s = first :: rest ∧ first <+: s ∧ sep ∉ first ∧
      ∀ piece ∈ rest, piece <:+: s ∧ sep ∉ piece := by
  induction s with
  | nil => exact ⟨[], [], rfl, List.prefix_refl _, by simp, by simp⟩
  | cons c cs ih =>
    obtain ⟨first, rest, hsplit, hfirst, hsep, hrest⟩ := ih
    by_cases hc : c = sep
    · refine ⟨[], first :: rest, by simp [split, hc, hsplit], List.nil_prefix, by simp, ?_⟩
      intro piece hpiece
      rcases List.mem_cons.mp hpiece with h | h
      · rw [h]
        exact ⟨List.infix_cons hfirst.isInfix, hsep⟩
      · exact ⟨List.infix_cons (hrest piece h).1, (hrest piece h).2⟩
    · refine ⟨c :: first, rest, by simp [split, hc, hsplit],
        (List.prefix_cons_inj c).mpr hfirst, ?_, ?_⟩
      · intro hmem
        rcases List.mem_cons.mp hmem with h | h
        · exact hc h.symm
        · exact hsep h
      · intro piece hpiece
        exact ⟨List.infix_cons (hrest piece hpiece).1, (hrest piece hpiece).2⟩

theorem split_piece_infix (sep : Nat) (s piece : JSString) (h : piece ∈ split sep s) :
    piece <:+: s ∧ sep ∉ piece := by
  obtain ⟨first, rest, hsplit, hfirst, hsep, hrest⟩ := split_pieces sep s
  rw [hsplit] at h
  rcases List.mem_cons.mp h with h1 | h1
  · rw [h1]
    exact ⟨hfirst.isInfix, hsep⟩
  · exact hrest piece h1

theorem words_fit_of_runs (T : JSString) (L : Nat)
    (hruns : ∀ run, run <:+: T → (∀ c ∈ run, c ≠ SP ∧ c ≠ LF) → run.length ≤ L) :
    ∀ line ∈ split LF T, ∀ word ∈ split SP line, word.length ≤ L := by
  intro line hline word hword
  obtain ⟨hlineInfix, hlineLF⟩ := split_piece_infix LF T line hline
  obtain ⟨hwordInfix, hwordSP⟩ := split_piece_infix SP line word hword
  refine hruns word (hwordInfix.trans hlineInfix) (fun c hc => ⟨?_, ?_⟩)
  · intro h
    exact hwordSP (h ▸ hc)
  · intro h
    exact hlineLF (h ▸ hwordInfix.subset hc)

/-- C22: when every run of code units other than space and line feed in `T` (so every word)
is at most `L` long, every segment of `splitMessage(T, L)` is at most `L` long, and the pending
chunk is at most `L` long after every line and, inside a line split by words, after every
word.  (This holds for every `L`, in particular for every `L ≥ 1`.) -/
theorem splitMessage_words_fit (T : JSString) (L : Nat)
    (hruns : ∀ run, run <:+: T → (∀ c ∈ run, c ≠ SP ∧ c ≠ LF) → run.length ≤ L) :
    (∀ segment ∈ splitMessage T L, segment.length ≤ L) ∧
    (∀ k, (((split LF T).take k).foldl (lineStep L) ⟨[], []⟩).currentChunk.length ≤ L) ∧
    (∀ k j line, (split LF T)[k]? = some line → line.length > L →
      (((split SP line).take j).foldl (wordStep L)
        (flush (((split LF T).take k).foldl (lineStep L) ⟨[], []⟩))).currentChunk.length
        ≤ L) := by
  have hwords := words_fit_of_runs T L hruns
  have hinit : SplitState.within L ⟨[], []⟩ := ⟨by simp, Nat.zero_le _⟩
  have hlines : ∀ k, (((split LF T).take k).foldl (lineStep L) ⟨[], []⟩).within L :=
    fun k => foldl_lineStep_within L _ _ hinit
      (fun line hline => hwords line (List.mem_of_mem_take hline))
  refine ⟨?_, fun k => (hlines k).2, fun k j line hline _ => ?_⟩
  · intro segment hsegment
    unfold splitMessage at hsegment
    split at hsegment
    · next hshort =>
      rw [List.mem_singleton.mp hsegment]
      exact hshort
    · exact (flush_within L _ (foldl_lineStep_within L _ _ hinit hwords)).1 segment hsegment
  · have hmem : line ∈ split LF T := List.getElem?_mem hline
    exact (foldl_wordStep_within L _ _ (flush_within L _ (hlines k))
      (fun word hword => hwords line hmem word (List.mem_of_mem_take hword))).2

/-- The bound of C22 on the text `ab cd`, line feed, `ef` with `maxLength = 3`: every word is
2 long, and the three segments are the three words. -/
theorem splitMessage_words_fit_witness :
    (∀ run, run <:+: js "ab cd\nef" → (∀ c ∈ run, c ≠ SP ∧ c ≠ LF) → run.length ≤ 3) ∧
    splitMessage (js "ab cd\nef") 3 = [js "ab", js "cd", js "ef"] ∧
    (∀ segment ∈ splitMessage (js "ab cd\nef") 3, segment.length ≤ 3) :=
  have hruns : ∀ run, run <:+: js "ab cd\nef" → (∀ c ∈ run, c ≠ SP ∧ c ≠ LF) →
      run.length ≤ 3 := by
    intro run hrun hclean
    obtain ⟨t, hpre, hsuf⟩ := List.infix_iff_prefix_suffix.mp hrun
    have hall : ∀ t ∈ (js "ab cd\nef").tails, ∀ r ∈ t.inits,
        (∀ c ∈ r, c ≠ SP ∧ c ≠ LF) → r.length ≤ 3 := by decide
    exact hall t ((List.mem_tails _ _).mpr hsuf) run ((List.mem_inits _ _).mpr hpre) hclean
  ⟨hruns, by decide, (splitMessage_words_fit (js "ab cd\nef") 3 hruns).1⟩

/-! ## The score is monotone -/

theorem ite3_mono (p q r p2 q2 r2 : Prop) [Decidable p] [Decidable q] [Decidable r]
    [Decidable p2] [Decidable q2] [Decidable r2] (a b c : ℕ) (hab : b ≤ a) (hbc : c ≤ b)
    (hp : p → p2) (hq : q → q2) (hr : r → r2) :
    (if p then a else if q then b else if r then c else 0)
      ≤ (if p2 then a else if q2 then b else if r2 then c else 0) := by
  by_cases h1 : p
  · simp [h1, hp h1]
  · by_cases h2 : q
    · have := hq h2
      by_cases h3 : p2 <;> simp [h1, h2, h3, this, hab]
    · by_cases h3 : r
      · have := hr h3
        by_cases h4 : p2 <;> by_cases h5 : q2 <;> simp [h1, h2, h3, h4, h5, this] <;> omega
      · simp [h1, h2, h3]

theorem ite1_mono (p p2 : Prop) [Decidable p] [Decidable p2] (a : ℕ) (hp : p → p2) :
    (if p then a else 0) ≤ (if p2 then a else 0) := by
  by_cases h1 : p
  · simp [h1, hp h1]
  · simp [h1]

theorem rate_mono (income expenses income2 expenses2 : ℚ) (hpos : 0 < income)
    (hincome : income ≤ income2) (hnonneg : 0 ≤ expenses2) (hexpenses : expenses2 ≤ expenses) :
    (income - expenses) / income * 100 ≤ (income2 - expenses2) / income2 * 100 := by
  have hpos2 : 0 < income2 := lt_of_lt_of_le hpos hincome
  have hcross : expenses2 * income ≤ expenses * income2 :=
    mul_le_mul hexpenses hincome (le_of_lt hpos) (le_trans hnonneg hexpenses)
  have hdiv : (income - expenses) / income ≤ (income2 - expenses2) / income2 := by
    rw [div_le_div_iff₀ hpos hpos2]
    nlinarith
  linarith

theorem ratio_mono (income debt income2 debt2 : ℚ) (hpos : 0 < income)
    (hincome : income ≤ income2) (hnonneg : 0 ≤ debt2) (hdebt : debt2 ≤ debt) :
    debt2 / income2 * 100 ≤ debt / income * 100 := by
  have hpos2 : 0 < income2 := lt_of_lt_of_le hpos hincome
  have hcross : debt2 * income ≤ debt * income2 :=
    mul_le_mul hdebt hincome (le_of_lt hpos) (le_trans hnonneg hdebt)
  have hdiv : debt2 / income2 ≤ debt / income := by
    rw [div_le_div_iff₀ hpos2 hpos]
    exact hcross
  linarith

theorem score_mono (income expenses debt savings income2 expenses2 debt2 savings2 : ℚ)
    (hpos : 0 < income) (hincome : income ≤ income2)
    (hsavings : savings ≤ savings2)
    (hexpenses0 : 0 ≤ expenses2) (hexpenses : expenses2 ≤ expenses)
    (hdebt0 : 0 ≤ debt2) (hdebt : debt2 ≤ debt) :
    score income expenses debt savings ≤ score income2 expenses2 debt2 savings2 := by
  have hpos2 : 0 < income2 := lt_of_lt_of_le hpos hincome
  have hrate := rate_mono income expenses income2 expenses2 hpos hincome hexpenses0 hexpenses
  have hratio := ratio_mono income debt income2 debt2 hpos hincome hdebt0 hdebt
  rw [score_eq_components, score_eq_components]
  unfold specScore
  dsimp only
  simp only [show (income > 0) = True from eq_true hpos,
    show (income2 > 0) = True from eq_true hpos2, if_true]
  refine Nat.add_le_add (Nat.add_le_add (Nat.add_le_add ?_ ?_) ?_) ?_
  · exact ite3_mono _ _ _ _ _ _ 25 15 10 (by norm_num) (by norm_num)
      (fun h => le_trans h hrate) (fun h => le_trans h hrate)
      (fun h => lt_of_lt_of_le h hrate)
  · exact ite3_mono _ _ _ _ _ _ 30 20 10 (by norm_num) (by norm_num)
      (fun h => by
        have h1 : expenses * 3 ≤ savings := h
        show expenses2 * 3 ≤ savings2
        linarith)
      (fun h => by
        have h1 : expenses ≤ savings := h
        show expenses2 ≤ savings2
        linarith)
      (fun h => by
        have h1 : 0 < savings := h
        show 0 < savings2
        linarith)
  · exact ite3_mono _ _ _ _ _ _ 25 15 10 (by norm_num) (by norm_num)
      (fun h => le_antisymm (h ▸ hdebt) hdebt0)
      (fun h => lt_of_le_of_lt hratio h) (fun h => lt_of_le_of_lt hratio h)
  · exact ite1_mono _ _ 20 (fun h => by
      have h1 : expenses < income := h
      show expenses2 < income2
      linarith)

theorem optionValues_sign (k : Nat) (hk : 1 ≤ k ∧ k ≤ 4) (x : ℚ)
    (h : AnswerValue.num x ∈ optionValues k) : 0 ≤ x ∧ (k = 1 → 0 < x) := by
  obtain ⟨h1, h4⟩ := hk
  interval_cases k <;>
    simp [optionValues, questionAt, financialQuiz.questions] at h <;>
    rcases h with rfl | rfl | rfl | rfl <;> norm_num

/-- C23: the score is monotone in the answers.  For all numbers with
`income2 ≥ income > 0`, `savings2 ≥ savings`, `0 ≤ expenses2 ≤ expenses` and
`0 ≤ debt2 ≤ debt` the score of the second answers is at least the score of the first (the
bound `savings ≥ 0` is not needed); in particular, among the option values of the quiz, a
higher income or savings option, or a lower expenses or debt option, never lowers the
score. -/
theorem score_monotone :
    (∀ income expenses debt savings income2 expenses2 debt2 savings2 : ℚ,
      0 < income → income ≤ income2 → savings ≤ savings2 →
      0 ≤ expenses2 → expenses2 ≤ expenses → 0 ≤ debt2 → debt2 ≤ debt →
      score income expenses debt savings ≤ score income2 expenses2 debt2 savings2) ∧
    (∀ income expenses debt savings income2 expenses2 debt2 savings2 : ℚ,
      AnswerValue.num income ∈ optionValues 1 → AnswerValue.num income2 ∈ optionValues 1 →
      AnswerValue.num expenses ∈ optionValues 2 → AnswerValue.num expenses2 ∈ optionValues 2 →
      AnswerValue.num debt ∈ optionValues 3 → AnswerValue.num debt2 ∈ optionValues 3 →
      AnswerValue.num savings ∈ optionValues 4 → AnswerValue.num savings2 ∈ optionValues 4 →
      income ≤ income2 → savings ≤ savings2 → expenses2 ≤ expenses → debt2 ≤ debt →
      score income expenses debt savings ≤ score income2 expenses2 debt2 savings2) := by
  refine ⟨fun income expenses debt savings income2 expenses2 debt2 savings2 hpos hincome
      hsavings hexpenses0 hexpenses hdebt0 hdebt =>
    score_mono income expenses debt savings income2 expenses2 debt2 savings2 hpos hincome
      hsavings hexpenses0 hexpenses hdebt0 hdebt, ?_⟩
  intro income expenses debt savings income2 expenses2 debt2 savings2 hi _ _ he2 _ hd2 _ _
    hincome hsavings hexpenses hdebt
  exact score_mono income expenses debt savings income2 expenses2 debt2 savings2
    ((optionValues_sign 1 (by decide) income hi).2 rfl) hincome hsavings
    (optionValues_sign 2 (by decide) expenses2 he2).1 hexpenses
    (optionValues_sign 3 (by decide) debt2 hd2).1 hdebt

/-- The monotonicity of C23 between two answer sets of the quiz: income 600 to 1000,
expenses 700 to 400, debt 2000 to 500, savings 100 to 500. -/
theorem score_monotone_witness :
    AnswerValue.num 600 ∈ optionValues 1 ∧ AnswerValue.num 1000 ∈ optionValues 1 ∧
    AnswerValue.num 700 ∈ optionValues 2 ∧ AnswerValue.num 400 ∈ optionValues 2 ∧
    AnswerValue.num 2000 ∈ optionValues 3 ∧ AnswerValue.num 500 ∈ optionValues 3 ∧
    AnswerValue.num 100 ∈ optionValues 4 ∧ AnswerValue.num 500 ∈ optionValues 4 ∧
    score 600 700 2000 100 ≤ score 1000 400 500 500 :=
  ⟨by decide, by decide, by decide, by decide, by decide, by decide, by decide, by decide,
    score_monotone.2 600 700 2000 100 1000 400 500 500 (by decide) (by decide) (by decide)
      (by decide) (by decide) (by decide) (by decide) (by decide) (by norm_num) (by norm_num)
      (by norm_num) (by norm_num)⟩

/-! ## The chunk sender on three chunks -/

theorem splitMessage_three_full_lines (L : Nat) (l1 l2 l3 : JSString) (h1 : LF ∉ l1)
    (h2 : LF ∉ l2) (h3 : LF ∉ l3) (hl1 : l1.length = L) (hl2 : l2.length = L)
    (hl3 : l3.length = L) :
    splitMessage (l1 ++ LF :: (l2 ++ LF :: l3)) L = [l1, l2, l3] := by
  have hnot : ¬ (l1 ++ LF :: (l2 ++ LF :: l3)).length ≤ L := by
    simp
    omega
  simp only [splitMessage, hnot, if_false, split_append_sep LF l1 _ h1,
    split_append_sep LF l2 _ h2, split_of_not_mem LF l3 h3, List.foldl_cons, List.foldl_nil,
    lineStep_full_line L _ l1 hl1, lineStep_full_line L _ l2 hl2,
    lineStep_full_line L _ l3 hl3]
  simp [flush]

theorem splitMessage_threeFullLines :
    splitMessage threeFullLines 4096
      = [List.replicate 4096 97, List.replicate 4096 98, List.replicate 4096 99] :=
  splitMessage_three_full_lines 4096 _ _ _
    (fun h => absurd (List.eq_of_mem_replicate h) (by decide))
    (fun h => absurd (List.eq_of_mem_replicate h) (by decide))
    (fun h => absurd (List.eq_of_mem_replicate h) (by decide))
    (List.length_replicate _ _) (List.length_replicate _ _) (List.length_replicate _ _)

/-- The failure case of C10 on a message of three chunks (4096 letters `a`, `b`, `c`) and a
transport that rejects its second call: the first chunk is sent, the second is sent and
fails, the third is never sent, and the call fails with the error of the second send. -/
theorem sendLongMessage_sends_in_order_witness :
    splitMessage threeFullLines 4096
      = [List.replicate 4096 97] ++ List.replicate 4096 98 :: [List.replicate 4096 99] ∧
    allSucceed failsOnSecond 5 [List.replicate 4096 97] 0 = true ∧
    (failsOnSecond (worldAfter failsOnSecond 5 [List.replicate 4096 97] 0) 5
      (List.replicate 4096 98)).2 = some "blocked" ∧
    (sendLongMessage failsOnSecond 5 threeFullLines 0).calls
      = [(5, List.replicate 4096 97), (5, List.replicate 4096 98)] ∧
    (sendLongMessage failsOnSecond 5 threeFullLines 0).result = .error "blocked" :=
  ⟨splitMessage_threeFullLines, rfl, rfl,
    (sendLongMessage_sends_in_order failsOnSecond 5 threeFullLines 0).2.1
      [List.replicate 4096 97] (List.replicate 4096 98) [List.replicate 4096 99] "blocked"
      splitMessage_threeFullLines rfl rfl⟩

end MoneyFlow
